import Mathlib

/-!
Verification development for the `@marianmeres/kv` key-value abstraction layer.

The TypeScript adapters (`src/adapter/memory.ts`, `src/adapter/redis.ts`,
`src/adapter/postgres.ts`, `src/adapter/deno-kv.ts`) are shallowly embedded:
each adapter instance becomes a Lean structure holding its configuration and
its backing state, and each method becomes a pure function threading that
state explicitly.  Wall-clock time (`Date.now()`, SQL `NOW()`) is passed in
as an explicit `now : Nat` (milliseconds).  TTL seconds are naturals.
-/

namespace KV

/-- JavaScript/JSON values, as far as the adapters observe them.  Numbers are
modelled as integers (the adapters never do numeric computation on values). -/
inductive JsValue where
  | undef : JsValue
  | null : JsValue
  | bool : Bool → JsValue
  | num : Int → JsValue
  | str : String → JsValue
  | arr : List JsValue → JsValue
  | obj : List (String × JsValue) → JsValue

/-- JavaScript truthiness of a value (`undefined`, `null`, `false`, `0` and
the empty string are falsy; arrays and objects are always truthy). -/
def jsTruthy : JsValue → Bool
  | .undef => false
  | .null => false
  | .bool b => b
  | .num n => n != 0
  | .str s => !s.isEmpty
  | .arr _ => true
  | .obj _ => true

/-- JavaScript nullish coalescing `v ?? null`. -/
def jsNullCoalesce : JsValue → JsValue
  | .undef => .null
  | .null => .null
  | v => v

mutual
/-- Models the external JSON builtins: `JSON.parse(JSON.stringify(v))`.
`JSON.stringify(undefined)` is `undefined`, modelled as `none`; inside an
array `undefined` serializes as `null`; an object field holding `undefined`
is dropped.  On the JSON-representable fragment this is the identity. -/
def jsonNormalize : JsValue → Option JsValue
  | .undef => none
  | .null => some .null
  | .bool b => some (.bool b)
  | .num n => some (.num n)
  | .str s => some (.str s)
  | .arr xs => some (.arr (jsonNormalizeList xs))
  | .obj fs => some (.obj (jsonNormalizeObj fs))

/-- Elementwise JSON normalization of an array (`undefined` becomes `null`). -/
def jsonNormalizeList : List JsValue → List JsValue
  | [] => []
  | x :: xs =>
    match jsonNormalize x with
    | none => .null :: jsonNormalizeList xs
    | some y => y :: jsonNormalizeList xs

/-- Fieldwise JSON normalization of an object (`undefined` fields dropped). -/
def jsonNormalizeObj : List (String × JsValue) → List (String × JsValue)
  | [] => []
  | (k, v) :: fs =>
    match jsonNormalize v with
    | none => jsonNormalizeObj fs
    | some y => (k, y) :: jsonNormalizeObj fs
end

mutual
/-- A value is JSON-representable when it contains no `undefined` anywhere. -/
def isRepresentable : JsValue → Bool
  | .undef => false
  | .null => true
  | .bool _ => true
  | .num _ => true
  | .str _ => true
  | .arr xs => isRepresentableList xs
  | .obj fs => isRepresentableObj fs

/-- All elements JSON-representable. -/
def isRepresentableList : List JsValue → Bool
  | [] => true
  | x :: xs => isRepresentable x && isRepresentableList xs

/-- All field values JSON-representable. -/
def isRepresentableObj : List (String × JsValue) → Bool
  | [] => true
  | (_, v) :: fs => isRepresentable v && isRepresentableObj fs
end

mutual
/-- JSON normalization is the identity on JSON-representable values. -/
theorem jsonNormalize_of_representable :
    ∀ v : JsValue, isRepresentable v = true → jsonNormalize v = some v
  | .undef, h => by simp [isRepresentable] at h
  | .null, _ => rfl
  | .bool _, _ => rfl
  | .num _, _ => rfl
  | .str _, _ => rfl
  | .arr xs, h => by
      simp only [jsonNormalize]
      rw [jsonNormalizeList_of_representable xs (by simpa [isRepresentable] using h)]
  | .obj fs, h => by
      simp only [jsonNormalize]
      rw [jsonNormalizeObj_of_representable fs (by simpa [isRepresentable] using h)]

/-- List version of `jsonNormalize_of_representable`. -/
theorem jsonNormalizeList_of_representable :
    ∀ xs : List JsValue, isRepresentableList xs = true → jsonNormalizeList xs = xs
  | [], _ => rfl
  | x :: xs, h => by
      have hx : isRepresentable x = true := by
        simp [isRepresentableList, Bool.and_eq_true] at h; exact h.1
      have hxs : isRepresentableList xs = true := by
        simp [isRepresentableList, Bool.and_eq_true] at h; exact h.2
      simp only [jsonNormalizeList, jsonNormalize_of_representable x hx,
        jsonNormalizeList_of_representable xs hxs]

/-- Object version of `jsonNormalize_of_representable`. -/
theorem jsonNormalizeObj_of_representable :
    ∀ fs : List (String × JsValue), isRepresentableObj fs = true → jsonNormalizeObj fs = fs
  | [], _ => rfl
  | (k, v) :: fs, h => by
      have hv : isRepresentable v = true := by
        simp [isRepresentableObj, Bool.and_eq_true] at h; exact h.1
      have hfs : isRepresentableObj fs = true := by
        simp [isRepresentableObj, Bool.and_eq_true] at h; exact h.2
      simp only [jsonNormalizeObj, jsonNormalize_of_representable v hv,
        jsonNormalizeObj_of_representable fs hfs]
end

/-! ### Association-list model of a JavaScript `Map` (and of keyed DB rows)

A `Map` keeps at most one entry per key; insertion of an existing key
replaces the value in place, deletion removes the entry. -/

/-- `Map.get` / keyed lookup. -/
def mapGet {α : Type} : List (String × α) → String → Option α
  | [], _ => none
  | (k', v) :: rest, k => if k' == k then some v else mapGet rest k

/-- `Map.has`. -/
def mapHas {α : Type} (m : List (String × α)) (k : String) : Bool :=
  (mapGet m k).isSome

/-- `Map.set`: replace in place if present, else append. -/
def mapSet {α : Type} : List (String × α) → String → α → List (String × α)
  | [], k, v => [(k, v)]
  | (k', v') :: rest, k, v =>
    if k' == k then (k, v) :: rest else (k', v') :: mapSet rest k v

/-- `Map.delete`. -/
def mapDelete {α : Type} : List (String × α) → String → List (String × α)
  | [], _ => []
  | (k', v) :: rest, k =>
    if k' == k then mapDelete rest k else (k', v) :: mapDelete rest k

theorem mapGet_mapSet_self {α : Type} (m : List (String × α)) (k : String) (v : α) :
    mapGet (mapSet m k v) k = some v := by
  induction m with
  | nil => simp [mapSet, mapGet]
  | cons p rest ih =>
    obtain ⟨k', v'⟩ := p
    by_cases h : k' = k
    · simp [mapSet, mapGet, h]
    · simp [mapSet, mapGet, h, ih]

theorem mapGet_mapSet_ne {α : Type} (m : List (String × α)) (k k' : String) (v : α)
    (h : k' ≠ k) : mapGet (mapSet m k v) k' = mapGet m k' := by
  have h' : ¬k = k' := Ne.symm h
  induction m with
  | nil => simp [mapSet, mapGet, h']
  | cons p rest ih =>
    obtain ⟨ka, va⟩ := p
    by_cases hk : ka = k
    · subst hk
      simp [mapSet, mapGet, h']
    · by_cases hk' : ka = k'
      · simp [mapSet, mapGet, hk, hk', h]
      · simp [mapSet, mapGet, hk, hk', ih]

theorem mapGet_mapDelete_self {α : Type} (m : List (String × α)) (k : String) :
    mapGet (mapDelete m k) k = none := by
  induction m with
  | nil => rfl
  | cons p rest ih =>
    obtain ⟨ka, va⟩ := p
    by_cases hk : ka = k
    · simp [mapDelete, hk, ih]
    · simp [mapDelete, mapGet, hk, ih]

theorem mapGet_mapDelete_ne {α : Type} (m : List (String × α)) (k k' : String)
    (h : k' ≠ k) : mapGet (mapDelete m k) k' = mapGet m k' := by
  induction m with
  | nil => rfl
  | cons p rest ih =>
    obtain ⟨ka, va⟩ := p
    by_cases hk : ka = k
    · subst hk
      have h' : ¬ka = k' := Ne.symm h
      simp [mapDelete, mapGet, h', ih]
    · by_cases hk' : ka = k'
      · simp [mapDelete, mapGet, hk, hk', h]
      · simp [mapDelete, mapGet, hk, hk', ih]

theorem mapHas_mapDelete_self {α : Type} (m : List (String × α)) (k : String) :
    mapHas (mapDelete m k) k = false := by
  simp [mapHas, mapGet_mapDelete_self]

theorem mapHas_mapSet_self {α : Type} (m : List (String × α)) (k : String) (v : α) :
    mapHas (mapSet m k v) k = true := by
  simp [mapHas, mapGet_mapSet_self]

/-! ### Pattern matcher

`memory.ts` translates a pattern to a regex with
`pattern.replace(star, any-star).replace(questionmark, any)` and tests the
anchored regex against each key.  The translation does not escape regex
metacharacters, so a literal dot in the pattern remains a regex dot
matching any single character.  We embed the resulting regex as a token
list; the embedding is faithful only for patterns whose characters avoid
the other regex metacharacters (`regexSpecial` below: backslash,
brackets, plus, bar, caret, dollar, braces), which in the source keep
their regex meaning or make the `RegExp` constructor throw, and every
theorem about matching semantics carries that restriction. -/

/-- One token of the regex produced from a pattern. -/
inductive RegexTok where
  | anyStar : RegexTok
  | anyOne : RegexTok
  | lit : Char → RegexTok

/-- Translate a glob pattern to regex tokens: star becomes any-star,
question mark becomes any-one, and a literal dot also becomes any-one
because the translation leaves it as an unescaped regex dot. -/
def globToTokens : List Char → List RegexTok
  | [] => []
  | c :: r =>
    (if c = '*' then RegexTok.anyStar
     else if c = '?' then RegexTok.anyOne
     else if c = '.' then RegexTok.anyOne
     else RegexTok.lit c) :: globToTokens r

/-- Anchored matching of the token list against a whole string. -/
def regexMatch : List RegexTok → List Char → Bool
  | [], [] => true
  | [], _ :: _ => false
  | .anyStar :: ts, s =>
    regexMatch ts s ||
      (match s with
       | [] => false
       | _ :: s' => regexMatch (.anyStar :: ts) s')
  | .anyOne :: ts, _ :: s' => regexMatch ts s'
  | .anyOne :: _, [] => false
  | .lit c :: ts, d :: s' => c == d && regexMatch ts s'
  | .lit _ :: _, [] => false
termination_by ts s => (s.length, ts.length)

/-- The regex metacharacters the token translation does NOT model: in the
source's unescaped regex they keep their regex meaning (quantifiers,
classes, groups, alternation, anchors, escapes) or make the `RegExp`
constructor throw, while `globToTokens` would treat them as literals.
Statements about the matcher are therefore restricted to patterns whose
characters avoid this set. -/
def regexSpecial (c : Char) : Bool :=
  c = '+' || c = '[' || c = ']' || c = '(' || c = ')' || c = '|' ||
  c = '^' || c = '$' || c = '\\' || c = '\x7b' || c = '\x7d'

/-! ### String utilities

JS strings are compared code unit by code unit (`toSorted` default
comparator after stringification, Deno KV part ordering); we model the
comparison lexicographically over the character list.  `slice(n)` and
`split(":")`/`join(":")` are likewise modelled structurally over the
character list. -/

/-- Strict lexicographic comparison of character lists. -/
def charListLt : List Char → List Char → Bool
  | [], [] => false
  | [], _ :: _ => true
  | _ :: _, [] => false
  | a :: as, b :: bs => a < b || (a == b && charListLt as bs)

/-- Reflexive lexicographic comparison of character lists. -/
def charListLe : List Char → List Char → Bool
  | [], _ => true
  | _ :: _, [] => false
  | a :: as, b :: bs => a < b || (a == b && charListLe as bs)

/-- JS string `<`. -/
def strLt (a b : String) : Bool := charListLt a.data b.data

/-- JS string `<=`, the sortedness relation of `toSorted()`. -/
def strLe (a b : String) : Bool := charListLe a.data b.data

/-- `key.slice(n)`: drop the first `n` characters. -/
def sliceFrom (n : Nat) (s : String) : String := String.mk (s.data.drop n)

/-- The character-level worker of `split(":")`. -/
def splitOnColonChars : List Char → List (List Char)
  | [] => [[]]
  | c :: rest =>
    let r := splitOnColonChars rest
    if c = ':' then [] :: r
    else
      match r with
      | [] => [[c]]
      | h :: t => (c :: h) :: t

/-- JS `key.split(":")`. -/
def splitOnColon (s : String) : List String :=
  (splitOnColonChars s.data).map (fun cs => String.mk cs)

/-- JS `parts.join(":")`. -/
def joinColon : List String → String
  | [] => ""
  | [s] => s
  | s :: rest => s ++ ":" ++ joinColon rest

/-! ### The in-memory adapter (`src/adapter/memory.ts`)

State: two co-indexed maps keyed by full (namespaced) key.  A stored value
is the result of `JSON.stringify`; we model it by its parsed JSON value
(`none` when `JSON.stringify` returned `undefined`, which a JS `Map`
stores as the value `undefined`). -/

/-- Tri-state result of `ttl()`: `Date | null | false`. -/
inductive TtlResult where
  | expiresAt : Nat → TtlResult
  | noExpiry : TtlResult
  | notFound : TtlResult
deriving DecidableEq

/-- Errors observable through the uniform contract: the
`_assertInitialized` throw, and the redis cluster-mode refusals of
`keys()`/`clear()`. -/
inductive KVError where
  | notInitialized : KVError
  | unsupportedInCluster : KVError
deriving DecidableEq

/-- Result of `info()`. -/
structure AdapterInfo where
  type : String
deriving DecidableEq

/-- `AdapterMemory`: configuration plus the two backing maps. -/
structure AdapterMemory where
  ns : String
  defaultTtl : Nat
  ttlCleanupIntervalSec : Nat
  store : List (String × Option JsValue)
  expirations : List (String × Nat)
  initialized : Bool

/-- A freshly constructed memory adapter (`new AdapterMemory(ns, opts)`). -/
def AdapterMemory.construct (ns : String) (defaultTtl ttlCleanupIntervalSec : Nat) :
    AdapterMemory :=
  { ns := ns, defaultTtl := defaultTtl,
    ttlCleanupIntervalSec := ttlCleanupIntervalSec,
    store := [], expirations := [], initialized := false }

/-- `options.ttl || this.options.defaultTtl`: an explicit nonzero per-call
TTL wins, otherwise (absent or zero) the adapter default applies. -/
def ttlOr (opts : Option Nat) (d : Nat) : Nat :=
  match opts with
  | some t => if t = 0 then d else t
  | none => d

/-- `#isExpired`: lazily removes the entry from both maps when past expiry.
Expiry is strict (`Date.now() > expiresAt`). -/
def AdapterMemory.isExpired (a : AdapterMemory) (now : Nat) (key : String) :
    Bool × AdapterMemory :=
  match mapGet a.expirations key with
  | none => (false, a)
  | some expiresAt =>
    if now > expiresAt then
      (true, { a with store := mapDelete a.store key,
                      expirations := mapDelete a.expirations key })
    else (false, a)

/-- `set`: stores the stringified value; resolves TTL per `ttlOr` and either
records an absolute expiry or removes any previous one. -/
def AdapterMemory.set (a : AdapterMemory) (now : Nat) (key : String) (value : JsValue)
    (opts : Option Nat) : Except KVError (Bool × AdapterMemory) :=
  if !a.initialized then .error .notInitialized else
  let k := a.ns ++ key
  let store := mapSet a.store k (jsonNormalize value)
  let ttl := ttlOr opts a.defaultTtl
  if ttl ≠ 0 then
    .ok (true, { a with store := store,
                        expirations := mapSet a.expirations k (now + ttl * 1000) })
  else
    .ok (true, { a with store := store,
                        expirations := mapDelete a.expirations k })

/-- `get`: lazy expiry check, then lookup; an absent key and a stored
`undefined` both come back as `null`. -/
def AdapterMemory.get (a : AdapterMemory) (now : Nat) (key : String) :
    Except KVError (JsValue × AdapterMemory) :=
  if !a.initialized then .error .notInitialized else
  let k := a.ns ++ key
  let r := a.isExpired now k
  if r.1 then .ok (.null, r.2)
  else
    match mapGet r.2.store k with
    | none => .ok (.null, r.2)
    | some none => .ok (.null, r.2)
    | some (some v) => .ok (v, r.2)

/-- `delete`: returns whether the store had the key (no expiry check),
removing it from both maps. -/
def AdapterMemory.delete (a : AdapterMemory) (key : String) :
    Except KVError (Bool × AdapterMemory) :=
  if !a.initialized then .error .notInitialized else
  let k := a.ns ++ key
  .ok (mapHas a.store k,
       { a with store := mapDelete a.store k,
                expirations := mapDelete a.expirations k })

/-- `exists`: lazy expiry check, then `store.has`. -/
def AdapterMemory.existsKey (a : AdapterMemory) (now : Nat) (key : String) :
    Except KVError (Bool × AdapterMemory) :=
  if !a.initialized then .error .notInitialized else
  let k := a.ns ++ key
  let r := a.isExpired now k
  if r.1 then .ok (false, r.2)
  else .ok (mapHas r.2.store k, r.2)

/-- The `filter(key => !this.#isExpired(key))` pass of `keys`: each call may
lazily delete the inspected key from both maps, so the state is threaded. -/
def keysFilterLoop (a : AdapterMemory) (now : Nat) :
    List String → List String × AdapterMemory
  | [] => ([], a)
  | k :: ks =>
    let r := a.isExpired now k
    let rest := keysFilterLoop r.2 now ks
    if r.1 then rest else (k :: rest.1, rest.2)

/-- `keys`: snapshot the store keys, drop expired ones, strip the namespace,
sort (`toSorted`, default lexicographic comparator), then — unless the
pattern is the lone star — filter by the derived anchored regex. -/
def AdapterMemory.keys (a : AdapterMemory) (now : Nat) (pattern : String) :
    Except KVError (List String × AdapterMemory) :=
  if !a.initialized then .error .notInitialized else
  let snapshot := a.store.map Prod.fst
  let r := keysFilterLoop a now snapshot
  let all := ((r.1.map (fun k => sliceFrom a.ns.length k)).mergeSort strLe)
  if pattern = "*" then .ok (all, r.2)
  else .ok (all.filter (fun k => regexMatch (globToTokens pattern.data) k.data), r.2)

/-- The deletion loop of `clear`, over the already-matched local keys. -/
def clearLoop (a : AdapterMemory) : List String → AdapterMemory
  | [] => a
  | k :: ks =>
    let kk := a.ns ++ k
    clearLoop { a with store := mapDelete a.store kk,
                       expirations := mapDelete a.expirations kk } ks

/-- `clear`: delete every key matched by `keys(pattern)` and count them. -/
def AdapterMemory.clear (a : AdapterMemory) (now : Nat) (pattern : String) :
    Except KVError (Nat × AdapterMemory) :=
  match a.keys now pattern with
  | .error e => .error e
  | .ok r => .ok (r.1.length, clearLoop r.2 r.1)

/-- The loop of `setMultiple`, calling `set` per pair and pushing `true`. -/
def setMultipleLoop (a : AdapterMemory) (now : Nat) (opts : Option Nat) :
    List (String × JsValue) → Except KVError (List Bool × AdapterMemory)
  | [] => .ok ([], a)
  | (k, v) :: rest =>
    match a.set now k v opts with
    | .error e => .error e
    | .ok r =>
      match setMultipleLoop r.2 now opts rest with
      | .error e => .error e
      | .ok r' => .ok (true :: r'.1, r'.2)

/-- `setMultiple`. -/
def AdapterMemory.setMultiple (a : AdapterMemory) (now : Nat)
    (pairs : List (String × JsValue)) (opts : Option Nat) :
    Except KVError (List Bool × AdapterMemory) :=
  if !a.initialized then .error .notInitialized else
  setMultipleLoop a now opts pairs

/-- The loop of `getMultiple`: `result[key] = await this.get(key)` builds a
record, so a repeated key overwrites its earlier entry in place. -/
def getMultipleLoop (a : AdapterMemory) (now : Nat) (acc : List (String × JsValue)) :
    List String → Except KVError (List (String × JsValue) × AdapterMemory)
  | [] => .ok (acc, a)
  | k :: ks =>
    match a.get now k with
    | .error e => .error e
    | .ok r => getMultipleLoop r.2 now (mapSet acc k r.1) ks

/-- `getMultiple`. -/
def AdapterMemory.getMultiple (a : AdapterMemory) (now : Nat) (ks : List String) :
    Except KVError (List (String × JsValue) × AdapterMemory) :=
  if !a.initialized then .error .notInitialized else
  getMultipleLoop a now [] ks

/-- `expire`: requires the key to be present and unexpired, then replaces
the expiry with `now + ttl` seconds.  `store.has` is checked before the
(mutating) expiry check, mirroring the short-circuit in the source. -/
def AdapterMemory.expire (a : AdapterMemory) (now : Nat) (key : String) (ttl : Nat) :
    Except KVError (Bool × AdapterMemory) :=
  if !a.initialized then .error .notInitialized else
  let k := a.ns ++ key
  if !(mapHas a.store k) then .ok (false, a)
  else
    let r := a.isExpired now k
    if r.1 then .ok (false, r.2)
    else .ok (true, { r.2 with expirations := mapSet r.2.expirations k (now + ttl * 1000) })

/-- `ttl`: `false` when absent or expired, `null` when no expiry is set,
otherwise the absolute expiry instant. -/
def AdapterMemory.ttl (a : AdapterMemory) (now : Nat) (key : String) :
    Except KVError (TtlResult × AdapterMemory) :=
  if !a.initialized then .error .notInitialized else
  let k := a.ns ++ key
  if !(mapHas a.store k) then .ok (.notFound, a)
  else
    let r := a.isExpired now k
    if r.1 then .ok (.notFound, r.2)
    else
      match mapGet r.2.expirations k with
      | none => .ok (.noExpiry, r.2)
      | some e => .ok (.expiresAt e, r.2)

/-- One element of a `transaction` batch. -/
inductive Operation where
  | setOp : String → JsValue → Option Nat → Operation
  | getOp : String → Operation
  | delOp : String → Operation

/-- A single per-operation result inside a transaction (`any[]` entry). -/
inductive OpResult where
  | boolR : Bool → OpResult
  | valR : JsValue → OpResult

/-- The sequential loop of the memory `transaction` (no rollback). -/
def transactionLoop (a : AdapterMemory) (now : Nat) :
    List Operation → Except KVError (List OpResult × AdapterMemory)
  | [] => .ok ([], a)
  | op :: ops =>
    match
      ((match op with
        | .setOp k v o =>
          match a.set now k v o with
          | .error e => .error e
          | .ok r => .ok (OpResult.boolR r.1, r.2)
        | .getOp k =>
          match a.get now k with
          | .error e => .error e
          | .ok r => .ok (OpResult.valR r.1, r.2)
        | .delOp k =>
          match a.delete k with
          | .error e => .error e
          | .ok r => .ok (OpResult.boolR r.1, r.2)) :
        Except KVError (OpResult × AdapterMemory)) with
    | .error e => .error e
    | .ok r =>
      match transactionLoop r.2 now ops with
      | .error e => .error e
      | .ok r' => .ok (r.1 :: r'.1, r'.2)

/-- `transaction`: memory operations run sequentially. -/
def AdapterMemory.transaction (a : AdapterMemory) (now : Nat) (ops : List Operation) :
    Except KVError (List OpResult × AdapterMemory) :=
  if !a.initialized then .error .notInitialized else
  transactionLoop a now ops

/-- `info`: returns the type tag only; the source performs no
initialization check here. -/
def AdapterMemory.info (_a : AdapterMemory) : AdapterInfo :=
  { type := "memory" }

/-- The sweep body of `#maybeTTLCleanup`: when the interval option is
nonzero, every entry at or past its expiry is removed from both maps. -/
def AdapterMemory.ttlCleanup (a : AdapterMemory) (now : Nat) : AdapterMemory :=
  if a.ttlCleanupIntervalSec = 0 then a
  else
    let expired := (a.expirations.filter (fun p => p.2 ≤ now)).map Prod.fst
    { a with store := a.store.filter (fun p => !expired.contains p.1),
             expirations := a.expirations.filter (fun p => !(p.2 ≤ now)) }

/-- `initialize`: marks the instance usable and runs the first sweep. -/
def AdapterMemory.initializeAdapter (a : AdapterMemory) (now : Nat) : AdapterMemory :=
  AdapterMemory.ttlCleanup { a with initialized := true } now

/-! ### The PostgreSQL adapter (`src/adapter/postgres.ts`)

The backing table is modelled as a list of rows.  `value` is a `JSONB`
column holding `JSON.stringify(value ?? null)`; the `pg` driver decodes it
back to a structured value, so the row stores the parsed JSON value.
`created_at`/`updated_at` are advisory bookkeeping and are not modelled. -/

/-- One row of the `__kv` table. -/
structure PgRow where
  key : String
  value : JsValue
  expiresAt : Option Nat

/-- `AdapterPostgres`: configuration plus the backing table. -/
structure AdapterPostgres where
  ns : String
  defaultTtl : Nat
  table : List PgRow
  initialized : Bool

/-- The SQL liveness filter `expires_at IS NULL OR expires_at > NOW()`. -/
def pgLive (r : PgRow) (now : Nat) : Bool :=
  match r.expiresAt with
  | none => true
  | some e => e > now

/-- The `INSERT ... ON CONFLICT (key) DO UPDATE` upsert: replace the value
and expiry of the conflicting row, else append a new row. -/
def pgUpsert : List PgRow → String → JsValue → Option Nat → List PgRow
  | [], k, v, e => [⟨k, v, e⟩]
  | r :: rest, k, v, e =>
    if r.key == k then ⟨k, v, e⟩ :: rest else r :: pgUpsert rest k v e

/-- `set`: resolves the TTL, computes the absolute expiry (or SQL `NULL`),
and upserts `JSON.stringify(value ?? null)`. -/
def AdapterPostgres.set (a : AdapterPostgres) (now : Nat) (key : String)
    (value : JsValue) (opts : Option Nat) : Except KVError (Bool × AdapterPostgres) :=
  if !a.initialized then .error .notInitialized else
  let k := a.ns ++ key
  let ttl := ttlOr opts a.defaultTtl
  let expiresAt := if ttl ≠ 0 then some (now + ttl * 1000) else none
  let v := (jsonNormalize (jsNullCoalesce value)).getD .null
  .ok (true, { a with table := pgUpsert a.table k v expiresAt })

/-- `get`: `SELECT value WHERE key = $1 AND (expires_at IS NULL OR
expires_at > NOW())`; no row yields `null`. -/
def AdapterPostgres.get (a : AdapterPostgres) (now : Nat) (key : String) :
    Except KVError (JsValue × AdapterPostgres) :=
  if !a.initialized then .error .notInitialized else
  let k := a.ns ++ key
  match a.table.find? (fun r => r.key == k && pgLive r now) with
  | none => .ok (.null, a)
  | some r => .ok (r.value, a)

/-- `delete`: `DELETE WHERE key = $1`, reporting whether a row was hit. -/
def AdapterPostgres.delete (a : AdapterPostgres) (key : String) :
    Except KVError (Bool × AdapterPostgres) :=
  if !a.initialized then .error .notInitialized else
  let k := a.ns ++ key
  .ok (a.table.any (fun r => r.key == k),
       { a with table := a.table.filter (fun r => !(r.key == k)) })

/-- `exists`: `SELECT 1 WHERE key = $1 AND` the liveness filter. -/
def AdapterPostgres.existsKey (a : AdapterPostgres) (now : Nat) (key : String) :
    Except KVError (Bool × AdapterPostgres) :=
  if !a.initialized then .error .notInitialized else
  let k := a.ns ++ key
  .ok (a.table.any (fun r => r.key == k && pgLive r now), a)

/-- `ttl`: `SELECT expires_at WHERE key = $1` — note the query carries no
liveness filter, so a row past its expiry still reports its old expiry. -/
def AdapterPostgres.ttl (a : AdapterPostgres) (key : String) :
    Except KVError (TtlResult × AdapterPostgres) :=
  if !a.initialized then .error .notInitialized else
  let k := a.ns ++ key
  match a.table.find? (fun r => r.key == k) with
  | none => .ok (.notFound, a)
  | some r =>
    match r.expiresAt with
    | none => .ok (.noExpiry, a)
    | some e => .ok (.expiresAt e, a)

/-- The result-map pass of `getMultiple`: for each requested key, the found
record is consulted with `found[key] || null`, so an absent key — or a
present but falsy value — becomes `null`. -/
def pgResultMap (found : List (String × JsValue)) :
    List String → List (String × JsValue) → List (String × JsValue)
  | [], acc => acc
  | k :: ks, acc =>
    let v :=
      match mapGet found k with
      | none => JsValue.null
      | some v => if jsTruthy v then v else JsValue.null
    pgResultMap found ks (mapSet acc k v)

/-- `getMultiple`: one `SELECT ... WHERE key IN (...)` with the liveness
filter, then the result map is filled for every requested key. -/
def AdapterPostgres.getMultiple (a : AdapterPostgres) (now : Nat) (ks : List String) :
    Except KVError (List (String × JsValue) × AdapterPostgres) :=
  if !a.initialized then .error .notInitialized else
  if ks.isEmpty then .ok ([], a) else
  let params := ks.map (fun k => a.ns ++ k)
  let rows := a.table.filter (fun r => params.contains r.key && pgLive r now)
  let found := rows.foldl (fun m r => mapSet m (sliceFrom a.ns.length r.key) r.value) []
  .ok (pgResultMap found ks [], a)

/-- `#likePattern`: convert the redis-style pattern to a `LIKE` pattern
(`*` to `%`, `?` to `_`). -/
def likePattern (p : String) : String :=
  String.mk (p.data.map (fun c =>
    if c = '*' then '%' else if c = '?' then '_' else c))

/-- The `LIKE` pattern as matcher tokens: `%` matches any sequence, `_`
exactly one character, any other character itself.  (`LIKE`'s backslash
escape is not modelled; no theorem below constrains which keys a postgres
pattern matches, only the order of the output.) -/
def likeToTokens : List Char → List RegexTok
  | [] => []
  | c :: r =>
    (if c = '%' then RegexTok.anyStar
     else if c = '_' then RegexTok.anyOne
     else RegexTok.lit c) :: likeToTokens r

/-- `keys`: `SELECT key ... WHERE key LIKE $1 AND (expires_at IS NULL OR
expires_at > NOW()) ORDER BY key` — the lone-star pattern short-circuits
to `namespace + "%"` — then strip the namespace and `toSorted()`. -/
def AdapterPostgres.keys (a : AdapterPostgres) (now : Nat) (pattern : String) :
    Except KVError (List String × AdapterPostgres) :=
  if !a.initialized then .error .notInitialized else
  let param := if pattern = "*" then a.ns ++ "%" else a.ns ++ likePattern pattern
  let rows := (a.table.filter
      (fun r => regexMatch (likeToTokens param.data) r.key.data && pgLive r now)
    ).mergeSort (fun x y => strLe x.key y.key)
  .ok ((rows.map (fun r => sliceFrom a.ns.length r.key)).mergeSort strLe, a)

/-- `clear`: `DELETE ... WHERE key LIKE $1` — with NO expiry filter, so
already-expired rows are deleted and counted too; the returned `rowCount`
is the number of rows removed. -/
def AdapterPostgres.clear (a : AdapterPostgres) (pattern : String) :
    Except KVError (Nat × AdapterPostgres) :=
  if !a.initialized then .error .notInitialized else
  let param := if pattern = "*" then a.ns ++ "%" else a.ns ++ likePattern pattern
  let hit := fun (r : PgRow) => regexMatch (likeToTokens param.data) r.key.data
  .ok ((a.table.filter hit).length,
    { a with table := a.table.filter (fun r => !hit r) })

/-- `setMultiple`: a single batch `INSERT ... ON CONFLICT` upsert; the TTL
is resolved once and the same `expires_at` applies to every pair, and the
reply is one `true` per pair.  (A batch repeating a key makes the server
reject the whole statement, and a bare `undefined` value — which
`JSON.stringify` cannot encode — makes the driver fail the `NOT NULL`
column: both edges are outside the model.) -/
def AdapterPostgres.setMultiple (a : AdapterPostgres) (now : Nat)
    (pairs : List (String × JsValue)) (opts : Option Nat) :
    Except KVError (List Bool × AdapterPostgres) :=
  if !a.initialized then .error .notInitialized else
  let ttl := ttlOr opts a.defaultTtl
  let eo := if ttl ≠ 0 then some (now + ttl * 1000) else none
  let table := pairs.foldl
    (fun t p => pgUpsert t (a.ns ++ p.1) ((jsonNormalize p.2).getD .null) eo)
    a.table
  .ok (pairs.map (fun _ => true), { a with table := table })

/-- `expire`: `UPDATE ... SET expires_at = now + ttl WHERE key = $1 AND
(live)`; the reply is whether any row was hit. -/
def AdapterPostgres.expire (a : AdapterPostgres) (now : Nat) (key : String)
    (ttl : Nat) : Except KVError (Bool × AdapterPostgres) :=
  if !a.initialized then .error .notInitialized else
  let k := a.ns ++ key
  let hit := fun (r : PgRow) => r.key == k && pgLive r now
  let table := a.table.map
    (fun r => if hit r then { r with expiresAt := some (now + ttl * 1000) } else r)
  .ok (a.table.any hit, { a with table := table })

/-- The `BEGIN`/`COMMIT` body of the postgres `transaction`: each listed
operation calls the adapter's own `set`/`get`/`delete` in order.  On an
initialized adapter none of them throws, so the `ROLLBACK` branch is
unreachable. -/
def pgTransactionLoop (now : Nat) :
    AdapterPostgres → List Operation →
    Except KVError (List OpResult × AdapterPostgres)
  | a, [] => .ok ([], a)
  | a, op :: ops =>
    match
      ((match op with
        | .setOp k v o =>
          match a.set now k v o with
          | .error e => .error e
          | .ok r => .ok (OpResult.boolR r.1, r.2)
        | .getOp k =>
          match a.get now k with
          | .error e => .error e
          | .ok r => .ok (OpResult.valR r.1, r.2)
        | .delOp k =>
          match a.delete k with
          | .error e => .error e
          | .ok r => .ok (OpResult.boolR r.1, r.2)) :
        Except KVError (OpResult × AdapterPostgres)) with
    | .error e => .error e
    | .ok r =>
      match pgTransactionLoop now r.2 ops with
      | .error e => .error e
      | .ok r' => .ok (r.1 :: r'.1, r'.2)

/-- `transaction`. -/
def AdapterPostgres.transaction (a : AdapterPostgres) (now : Nat)
    (ops : List Operation) :
    Except KVError (List OpResult × AdapterPostgres) :=
  if !a.initialized then .error .notInitialized else
  pgTransactionLoop now a ops

/-- `info`: the type tag, with no initialization check. -/
def AdapterPostgres.info (_a : AdapterPostgres) : AdapterInfo :=
  { type := "postgres" }

/-! ### The Redis adapter (`src/adapter/redis.ts`)

The external Redis server is modelled as a map from full key to the stored
string (kept as its parsed JSON value) together with an optional absolute
expiry: `SET key value EX ttl` stores with expiry `now + ttl` seconds, and
a plain `SET` (the `EX: undefined` case) stores without one. -/

/-- One Redis entry: stored string (as parsed JSON) and optional expiry. -/
structure RedisEntry where
  value : JsValue
  expiresAt : Option Nat

/-- `AdapterRedis`: configuration plus the modelled server state. -/
structure AdapterRedis where
  ns : String
  defaultTtl : Nat
  db : List (String × RedisEntry)
  isCluster : Bool
  initialized : Bool

/-- Whether an entry is still live at `now`: the server removes a key once
its expiry instant is reached. -/
def redisLive (e : RedisEntry) (now : Nat) : Bool :=
  match e.expiresAt with
  | none => true
  | some t => now < t

/-- Lookup as the server answers it: an expired entry is gone. -/
def redisDbGet (db : List (String × RedisEntry)) (now : Nat) (k : String) :
    Option RedisEntry :=
  match mapGet db k with
  | none => none
  | some e => if redisLive e now then some e else none

/-- `set`: resolves `options.ttl || defaultTtl || undefined` and issues
`SET` with `EX` accordingly; the reply `OK` maps to `true`. -/
def AdapterRedis.set (a : AdapterRedis) (now : Nat) (key : String)
    (value : JsValue) (opts : Option Nat) : Except KVError (Bool × AdapterRedis) :=
  if !a.initialized then .error .notInitialized else
  let k := a.ns ++ key
  let ttl := ttlOr opts a.defaultTtl
  let expiresAt := if ttl ≠ 0 then some (now + ttl * 1000) else none
  let v := (jsonNormalize (jsNullCoalesce value)).getD .null
  .ok (true, { a with db := mapSet a.db k ⟨v, expiresAt⟩ })

/-- `get`: `GET` then `JSON.parse` of the stored string — recovering the
stored value — and `null` for a missing or expired key. -/
def AdapterRedis.get (a : AdapterRedis) (now : Nat) (key : String) :
    Except KVError (JsValue × AdapterRedis) :=
  if !a.initialized then .error .notInitialized else
  match redisDbGet a.db now (a.ns ++ key) with
  | none => .ok (.null, a)
  | some e => .ok (e.value, a)

/-- `delete`: `DEL` removes the key and replies how many of the listed
keys existed (live); `Number(reply) > 0`. -/
def AdapterRedis.delete (a : AdapterRedis) (now : Nat) (key : String) :
    Except KVError (Bool × AdapterRedis) :=
  if !a.initialized then .error .notInitialized else
  let k := a.ns ++ key
  .ok ((redisDbGet a.db now k).isSome, { a with db := mapDelete a.db k })

/-- `exists`: the server's `EXISTS` reply `=== 1`. -/
def AdapterRedis.existsKey (a : AdapterRedis) (now : Nat) (key : String) :
    Except KVError (Bool × AdapterRedis) :=
  if !a.initialized then .error .notInitialized else
  .ok ((redisDbGet a.db now (a.ns ++ key)).isSome, a)

/-- The server-side `MATCH` glob of the key scan, on the fragment the
claims exercise: `*` matches any sequence, `?` exactly one character, any
other character itself.  (Bracket classes and backslash escapes of the
full Redis glob are not modelled; no theorem below constrains which keys a
redis pattern matches, only the order of the output.) -/
def redisGlobToTokens : List Char → List RegexTok
  | [] => []
  | c :: r =>
    (if c = '*' then RegexTok.anyStar
     else if c = '?' then RegexTok.anyOne
     else RegexTok.lit c) :: redisGlobToTokens r

/-- `keys`: refused in cluster mode; otherwise scan the live keys matching
`namespace + pattern`, strip the namespace (mandatory in this adapter, so
the strip is unconditional), and `toSorted()`. -/
def AdapterRedis.keys (a : AdapterRedis) (now : Nat) (pattern : String) :
    Except KVError (List String × AdapterRedis) :=
  if !a.initialized then .error .notInitialized else
  if a.isCluster then .error .unsupportedInCluster else
  let toks := redisGlobToTokens (a.ns ++ pattern).data
  let ks := (a.db.filter
      (fun p => redisLive p.2 now && regexMatch toks p.1.data)).map Prod.fst
  .ok ((ks.map (fun k => sliceFrom a.ns.length k)).mergeSort strLe, a)

/-- `clear`: refused in cluster mode; `keys(pattern)`, then — unless there
were no hits, which short-circuits to `0` — one `UNLINK` of the
re-namespaced hits, whose reply counts the keys actually removed. -/
def AdapterRedis.clear (a : AdapterRedis) (now : Nat) (pattern : String) :
    Except KVError (Nat × AdapterRedis) :=
  if !a.initialized then .error .notInitialized else
  if a.isCluster then .error .unsupportedInCluster else
  match a.keys now pattern with
  | .error e => .error e
  | .ok (ks, a') =>
    if ks.isEmpty then .ok (0, a')
    else
      let fullKs := ks.map (fun k => a.ns ++ k)
      .ok ((fullKs.filter (fun k => (redisDbGet a'.db now k).isSome)).length,
        { a' with db := a'.db.filter (fun p => !fullKs.contains p.1) })

/-- `setMultiple`: one `MULTI` pipeline of `SET key value EX ttl` with the
TTL resolved once; every reply is `OK`, so the result is all `true`.  (A
bare `undefined` value, which `JSON.stringify` cannot encode, is outside
the model.) -/
def AdapterRedis.setMultiple (a : AdapterRedis) (now : Nat)
    (pairs : List (String × JsValue)) (opts : Option Nat) :
    Except KVError (List Bool × AdapterRedis) :=
  if !a.initialized then .error .notInitialized else
  let ttl := ttlOr opts a.defaultTtl
  let eo := if ttl ≠ 0 then some (now + ttl * 1000) else none
  let db := pairs.foldl
    (fun d p => mapSet d (a.ns ++ p.1) ⟨(jsonNormalize p.2).getD .null, eo⟩)
    a.db
  .ok (pairs.map (fun _ => true), { a with db := db })

/-- `getMultiple`: one `MGET`; a present value is `JSON.parse`d back, a
missing or expired key maps to `null`.  Each reply lands in
`result[withoutNs(withNs(key))]` — the key it was requested under — and a
repeated key overwrites its earlier record entry in place. -/
def AdapterRedis.getMultiple (a : AdapterRedis) (now : Nat) (ks : List String) :
    Except KVError (List (String × JsValue) × AdapterRedis) :=
  if !a.initialized then .error .notInitialized else
  let acc := ks.foldl (fun m k =>
    mapSet m k (match redisDbGet a.db now (a.ns ++ k) with
      | none => .null
      | some e => e.value)) []
  .ok (acc, a)

/-- `expire`: the server replies `1` — mapped to `true` — iff the key is
live, setting its expiry to `now + ttl` seconds; otherwise `0`/`false`
with no change. -/
def AdapterRedis.expire (a : AdapterRedis) (now : Nat) (key : String)
    (ttl : Nat) : Except KVError (Bool × AdapterRedis) :=
  if !a.initialized then .error .notInitialized else
  let k := a.ns ++ key
  match redisDbGet a.db now k with
  | none => .ok (false, a)
  | some e =>
    .ok (true, { a with db := mapSet a.db k ⟨e.value, some (now + ttl * 1000)⟩ })

/-- `ttl`: the server's `TTL` reply is `-2` (no key) → `false`, `-1` (no
expiry) → `null`, else the remaining seconds (the server rounds the
millisecond remainder to the nearest second), turned back into an absolute
instant as `Date.now() + seconds`. -/
def AdapterRedis.ttl (a : AdapterRedis) (now : Nat) (key : String) :
    Except KVError (TtlResult × AdapterRedis) :=
  if !a.initialized then .error .notInitialized else
  match redisDbGet a.db now (a.ns ++ key) with
  | none => .ok (.notFound, a)
  | some e =>
    match e.expiresAt with
    | none => .ok (.noExpiry, a)
    | some t => .ok (.expiresAt (now + ((t - now + 500) / 1000) * 1000), a)

/-- The `MULTI` body of the redis `transaction` plus the result fix-ups:
`set` stores the stringified value with NO `EX` — unlike `set()`, a
transaction `set` ignores the per-op options and applies no TTL — and its
`OK` reply maps to `true`; a `get` reply is `JSON.parse`d (a missing key's
`null` reply stringifies to `"null"` and parses back to `null`); a `del`
reply maps to whether a (live) key was removed. -/
def redisTransactionLoop (now : Nat) :
    AdapterRedis → List Operation → List OpResult × AdapterRedis
  | a, [] => ([], a)
  | a, op :: ops =>
    let r : OpResult × AdapterRedis :=
      match op with
      | .setOp k v _o =>
        let e : RedisEntry := ⟨(jsonNormalize v).getD .null, none⟩
        (.boolR true, { a with db := mapSet a.db (a.ns ++ k) e })
      | .getOp k =>
        (.valR (match redisDbGet a.db now (a.ns ++ k) with
          | none => .null
          | some e => e.value), a)
      | .delOp k =>
        (.boolR (redisDbGet a.db now (a.ns ++ k)).isSome,
         { a with db := mapDelete a.db (a.ns ++ k) })
    let rest := redisTransactionLoop now r.2 ops
    (r.1 :: rest.1, rest.2)

/-- `transaction`. -/
def AdapterRedis.transaction (a : AdapterRedis) (now : Nat)
    (ops : List Operation) : Except KVError (List OpResult × AdapterRedis) :=
  if !a.initialized then .error .notInitialized else
  .ok (redisTransactionLoop now a ops)

/-- `info`: the type tag, with no initialization check. -/
def AdapterRedis.info (_a : AdapterRedis) : AdapterInfo :=
  { type := "redis" }

/-! ### The Deno KV adapter (`src/adapter/deno-kv.ts`)

The external `Deno.Kv` store keys entries by tuples of parts and, per the
Deno KV documentation, `list` iterates entries in ascending key order,
comparing tuples part by part.  `expireIn` on `set` (relative
milliseconds) is recorded as the absolute expiry instant of the entry;
expiry ENFORCEMENT happens inside the Deno runtime and is documented as
eventually consistent, so reads in this model do not filter by it (no
claim exercises a Deno KV read after expiry).  Stored values are the
`JSON.stringify` output, modelled as the parsed JSON value; `#parseValue`
turns a missing row into `null`. -/

/-- `value === undefined ? null : value` as performed by `set`. -/
def jsUndefToNull : JsValue → JsValue
  | .undef => .null
  | v => v

/-- Whether a value is exactly JS `null`. -/
def JsValue.isNull : JsValue → Bool
  | .null => true
  | _ => false

/-- One Deno KV entry: the stored string (as parsed JSON) plus the
absolute expiry instant derived from `expireIn`, if one was passed. -/
structure DenoEntry where
  value : JsValue
  expireAt : Option Nat

/-- Keyed lookup in the modelled Deno KV store. -/
def denoDbGet : List (List String × DenoEntry) → List String → Option DenoEntry
  | [], _ => none
  | (k', v) :: rest, k => if k' == k then some v else denoDbGet rest k

/-- `Deno.Kv.set`: replace the entry with the same key tuple, else add. -/
def denoDbSet : List (List String × DenoEntry) → List String → DenoEntry →
    List (List String × DenoEntry)
  | [], k, v => [(k, v)]
  | (k', v') :: rest, k, v =>
    if k' == k then (k, v) :: rest else (k', v') :: denoDbSet rest k v

/-- `Deno.Kv.delete`. -/
def denoDbDelete (db : List (List String × DenoEntry)) (k : List String) :
    List (List String × DenoEntry) :=
  db.filter (fun e => !(e.1 == k))

/-- Part-tuple ordering used by Deno KV iteration (lexicographic over the
parts, each part compared as a string). -/
def partsLe : List String → List String → Bool
  | [], _ => true
  | _ :: _, [] => false
  | a :: as, b :: bs => if a == b then partsLe as bs else strLt a b

/-- Modelled from the Deno KV documentation: `list({ prefix })` yields the
entries whose key tuple extends the prefix, in ascending key order. -/
def denoDbList (db : List (List String × DenoEntry)) (pl : List String) :
    List (List String × DenoEntry) :=
  (db.filter (fun e => pl.isPrefixOf e.1)).mergeSort (fun x y => partsLe x.1 y.1)

/-- `AdapterDenoKv`: configuration plus the modelled `Deno.Kv` handle. -/
structure AdapterDenoKv where
  ns : String
  defaultTtl : Nat
  db : List (List String × DenoEntry)
  initialized : Bool

/-- `#denoKvKey`: split the key on the namespace separator into a head part
and the joined remainder, drop empty parts, and (for a full key) prepend
the namespace unconditionally. -/
def denoKvKey (ns : String) (key : String) (full : Bool) : List String :=
  let parts := splitOnColon key
  let pre := parts.headD ""
  let rest := joinColon parts.tail
  let out := [pre, rest].filter (fun s => !s.data.isEmpty)
  if full then ns :: out else out

/-- `set`: resolves `options.ttl || defaultTtl || undefined` and passes
`expireIn: ttl ? ttl * 1000 : undefined` to the runtime, which the model
records as the entry's absolute expiry; collapses `undefined` to `null`,
stringifies, and stores. -/
def AdapterDenoKv.set (a : AdapterDenoKv) (now : Nat) (key : String)
    (value : JsValue) (opts : Option Nat) :
    Except KVError (Bool × AdapterDenoKv) :=
  if !a.initialized then .error .notInitialized else
  let t := ttlOr opts a.defaultTtl
  let expireAt := if t ≠ 0 then some (now + t * 1000) else none
  let v := (jsonNormalize (jsUndefToNull value)).getD .null
  .ok (true, { a with db := denoDbSet a.db (denoKvKey a.ns key true) ⟨v, expireAt⟩ })

/-- `get`: fetch and `#parseValue` (a missing row parses to `null`). -/
def AdapterDenoKv.get (a : AdapterDenoKv) (key : String) :
    Except KVError (JsValue × AdapterDenoKv) :=
  if !a.initialized then .error .notInitialized else
  match denoDbGet a.db (denoKvKey a.ns key true) with
  | none => .ok (.null, a)
  | some e => .ok (e.value, a)

/-- `exists`: defined as `null !== await this.get(key)`. -/
def AdapterDenoKv.existsKey (a : AdapterDenoKv) (key : String) :
    Except KVError (Bool × AdapterDenoKv) :=
  if !a.initialized then .error .notInitialized else
  match denoDbGet a.db (denoKvKey a.ns key true) with
  | none => .ok (false, a)
  | some e => .ok (!(JsValue.isNull e.value), a)

/-- `delete`: always reports `true` (documented Deno KV limitation). -/
def AdapterDenoKv.delete (a : AdapterDenoKv) (key : String) :
    Except KVError (Bool × AdapterDenoKv) :=
  if !a.initialized then .error .notInitialized else
  .ok (true, { a with db := denoDbDelete a.db (denoKvKey a.ns key true) })

/-- `keys`: prefix-scan via `list`, then per entry re-join the parts after
the namespace and filter by the derived regex (with star shortcuts).  The
output keeps the backend iteration order — there is no sorting step. -/
def AdapterDenoKv.keys (a : AdapterDenoKv) (pattern : String) :
    Except KVError (List String × AdapterDenoKv) :=
  if !a.initialized then .error .notInitialized else
  let pf := denoKvKey a.ns pattern false
  let pre := pf[0]?
  let search := pf[1]?
  let listPrefix :=
    (([some a.ns, if pre == some "*" then none else pre].filterMap id).filter
      (fun s => !s.data.isEmpty))
  let entries := denoDbList a.db listPrefix
  let out := (entries.map (fun e => joinColon (e.1.drop 1))).filter
    (fun key =>
      pre == some "*" || search == some "*" ||
        regexMatch (globToTokens pattern.data) key.data)
  .ok (out, a)

/-- `expire`: not supported by Deno KV, fixed `false`. -/
def AdapterDenoKv.expire (a : AdapterDenoKv) (_key : String) (_ttl : Nat) :
    Except KVError (Bool × AdapterDenoKv) :=
  if !a.initialized then .error .notInitialized else
  .ok (false, a)

/-- `ttl`: not supported by Deno KV, fixed `null`. -/
def AdapterDenoKv.ttl (a : AdapterDenoKv) (_key : String) :
    Except KVError (TtlResult × AdapterDenoKv) :=
  if !a.initialized then .error .notInitialized else
  .ok (.noExpiry, a)

/-- The deletion loop of `clear` over the matched keys: each `this.delete`
(the adapter is initialized at this point) removes the key's tuple, and
the counter is bumped per key. -/
def denoClearLoop : AdapterDenoKv → List String → Nat × AdapterDenoKv
  | a, [] => (0, a)
  | a, k :: ks =>
    let r := denoClearLoop
      { a with db := denoDbDelete a.db (denoKvKey a.ns k true) } ks
    (r.1 + 1, r.2)

/-- `clear`: delete every key matched by `keys(pattern)` and count them. -/
def AdapterDenoKv.clear (a : AdapterDenoKv) (pattern : String) :
    Except KVError (Nat × AdapterDenoKv) :=
  match a.keys pattern with
  | .error e => .error e
  | .ok r => .ok (denoClearLoop r.2 r.1)

/-- The loop of `setMultiple`, calling `set` per pair and pushing `true`. -/
def denoSetMultipleLoop (now : Nat) (opts : Option Nat) :
    AdapterDenoKv → List (String × JsValue) →
    Except KVError (List Bool × AdapterDenoKv)
  | a, [] => .ok ([], a)
  | a, (k, v) :: rest =>
    match a.set now k v opts with
    | .error e => .error e
    | .ok r =>
      match denoSetMultipleLoop now opts r.2 rest with
      | .error e => .error e
      | .ok r' => .ok (true :: r'.1, r'.2)

/-- `setMultiple`. -/
def AdapterDenoKv.setMultiple (a : AdapterDenoKv) (now : Nat)
    (pairs : List (String × JsValue)) (opts : Option Nat) :
    Except KVError (List Bool × AdapterDenoKv) :=
  if !a.initialized then .error .notInitialized else
  denoSetMultipleLoop now opts a pairs

/-- `getMultiple`: one `getMany` over the derived key tuples; each row is
`#parseValue`d (a missing row to `null`).  Each reply lands in
`result[keys[index]]`, a record, so a repeated key overwrites its earlier
entry in place. -/
def AdapterDenoKv.getMultiple (a : AdapterDenoKv) (ks : List String) :
    Except KVError (List (String × JsValue) × AdapterDenoKv) :=
  if !a.initialized then .error .notInitialized else
  let acc := ks.foldl (fun m k =>
    mapSet m k (match denoDbGet a.db (denoKvKey a.ns k true) with
      | none => .null
      | some e => e.value)) []
  .ok (acc, a)

/-- The sequential loop of the Deno KV `transaction` (no atomic batch is
used; the catch/rethrow adds nothing). -/
def denoTransactionLoop (now : Nat) :
    AdapterDenoKv → List Operation →
    Except KVError (List OpResult × AdapterDenoKv)
  | a, [] => .ok ([], a)
  | a, op :: ops =>
    match
      ((match op with
        | .setOp k v o =>
          match a.set now k v o with
          | .error e => .error e
          | .ok r => .ok (OpResult.boolR r.1, r.2)
        | .getOp k =>
          match a.get k with
          | .error e => .error e
          | .ok r => .ok (OpResult.valR r.1, r.2)
        | .delOp k =>
          match a.delete k with
          | .error e => .error e
          | .ok r => .ok (OpResult.boolR r.1, r.2)) :
        Except KVError (OpResult × AdapterDenoKv)) with
    | .error e => .error e
    | .ok r =>
      match denoTransactionLoop now r.2 ops with
      | .error e => .error e
      | .ok r' => .ok (r.1 :: r'.1, r'.2)

/-- `transaction`. -/
def AdapterDenoKv.transaction (a : AdapterDenoKv) (now : Nat)
    (ops : List Operation) :
    Except KVError (List OpResult × AdapterDenoKv) :=
  if !a.initialized then .error .notInitialized else
  denoTransactionLoop now a ops

/-- `info`: the type tag, with no initialization check. -/
def AdapterDenoKv.info (_a : AdapterDenoKv) : AdapterInfo :=
  { type := "deno-kv" }

/-! ### Construction and initialization of the other adapters -/

/-- A freshly constructed postgres adapter (table will be created lazily). -/
def AdapterPostgres.construct (ns : String) (defaultTtl : Nat) : AdapterPostgres :=
  { ns := ns, defaultTtl := defaultTtl, table := [], initialized := false }

/-- `initialize` for postgres: `CREATE TABLE IF NOT EXISTS` plus the expiry
index leave existing rows untouched; the adapter becomes usable. -/
def AdapterPostgres.initializeAdapter (a : AdapterPostgres) : AdapterPostgres :=
  { a with initialized := true }

/-- A freshly constructed redis adapter (namespace mandatory there). -/
def AdapterRedis.construct (ns : String) (defaultTtl : Nat) (isCluster : Bool) :
    AdapterRedis :=
  { ns := ns, defaultTtl := defaultTtl, db := [], isCluster := isCluster,
    initialized := false }

/-- `initialize` for redis: connects the client and marks the adapter usable. -/
def AdapterRedis.initializeAdapter (a : AdapterRedis) : AdapterRedis :=
  { a with initialized := true }

/-- A freshly constructed Deno KV adapter over a given store handle. -/
def AdapterDenoKv.construct (ns : String) (defaultTtl : Nat)
    (db : List (List String × DenoEntry)) : AdapterDenoKv :=
  { ns := ns, defaultTtl := defaultTtl, db := db, initialized := false }

/-- `initialize` for Deno KV: marks the adapter usable. -/
def AdapterDenoKv.initializeAdapter (a : AdapterDenoKv) : AdapterDenoKv :=
  { a with initialized := true }

/-! ### Shared concrete instances used by the claim evaluations -/

/-- An initialized memory adapter: empty namespace, no default TTL, sweeper
disabled. -/
def memInit : AdapterMemory :=
  AdapterMemory.initializeAdapter (AdapterMemory.construct "" 0 0) 0

/-- An initialized postgres adapter: empty namespace, no default TTL. -/
def pgInit : AdapterPostgres :=
  AdapterPostgres.initializeAdapter (AdapterPostgres.construct "" 0)

/-- An initialized Deno KV adapter with namespace `n:` over an empty store. -/
def denoInit : AdapterDenoKv :=
  AdapterDenoKv.initializeAdapter (AdapterDenoKv.construct "n:" 0 [])

/-- The postgres state after `set("k", "v", ttl 1)` at instant 0: one row
expiring at absolute instant 1000 ms. -/
def pgExpiredRowState : AdapterPostgres :=
  { ns := "", defaultTtl := 0, table := [⟨"k", .str "v", some 1000⟩],
    initialized := true }

/-- The postgres state after `set("z", 0)` (no TTL): one live row holding
the number `0`. -/
def pgZeroRowState : AdapterPostgres :=
  { ns := "", defaultTtl := 0, table := [⟨"z", .num 0, none⟩],
    initialized := true }

/-- C2: `ttl(key)` returns an absolute future instant, `null` for no expiry,
and `false` for an absent or already-expired key (Deno KV: fixed `null`).
REFUTED ON THE CODE for the postgres adapter: its `ttl` query carries no
expiry filter, so at instant 2000 a row that expired at instant 1000 — the
key is gone for `get`/`exists` — still reports its past expiry instant
instead of `false` (`notFound`).  The memory adapter and the abstract
contract documentation agree with the claim, so the postgres behavior is a
slip in the code. -/
theorem C2_pg_ttl_expired_returns_past_date :
    pgInit.set 0 "k" (.str "v") (some 1) = .ok (true, pgExpiredRowState) ∧
    (pgExpiredRowState.existsKey 2000 "k").map Prod.fst = .ok false ∧
    (pgExpiredRowState.get 2000 "k").map Prod.fst = .ok .null ∧
    (pgExpiredRowState.ttl "k").map Prod.fst = .ok (.expiresAt 1000) ∧
    (2000 : Nat) > 1000 := by
  refine ⟨rfl, rfl, rfl, rfl, by decide⟩

/-- C6: `getMultiple` maps each requested key to the value a single `get`
would return.  REFUTED ON THE CODE for the postgres adapter: its result map
is filled with `found[key] || null`, so a present row holding the falsy
JSON value `0` is collapsed to `null` even though `get` returns `0`.  The
batch-equals-single contract is clearly the intent (the abstract
documentation reserves `null` for missing or expired keys), so this is a
slip in the code. -/
theorem C6_pg_getMultiple_falsy_collapse :
    pgInit.set 0 "z" (.num 0) none = .ok (true, pgZeroRowState) ∧
    (pgZeroRowState.get 5 "z").map Prod.fst = .ok (.num 0) ∧
    (pgZeroRowState.getMultiple 5 ["z"]).map Prod.fst = .ok [("z", .null)] := by
  refine ⟨rfl, rfl, rfl⟩

/-- The memory state after `set("k", "v", ttl 1)` at instant 0: the entry
expires at absolute instant 1000 ms. -/
def memExpiredRowState : AdapterMemory :=
  { ns := "", defaultTtl := 0, ttlCleanupIntervalSec := 0,
    store := [("k", some (.str "v"))], expirations := [("k", 1000)],
    initialized := true }

/-- C4 counterexample: `delete(k)` is claimed to return `true` only when a
live (non-expired) entry existed at call time.  At instant 2000 the entry
of `memExpiredRowState` has been expired for a full second — `exists` says
`false` and `ttl` says `notFound` — yet `delete` returns `true`, because
the source checks `store.has(key)` without any expiry check and the lazy
removal has not run. -/
theorem C4_counterexample :
    memInit.set 0 "k" (.str "v") (some 1) = .ok (true, memExpiredRowState) ∧
    (memExpiredRowState.existsKey 2000 "k").map Prod.fst = .ok false ∧
    (memExpiredRowState.ttl 2000 "k").map Prod.fst = .ok .notFound ∧
    (memExpiredRowState.delete "k").map Prod.fst = .ok true := by
  refine ⟨rfl, rfl, rfl, rfl⟩

/-- The Deno KV state after `set("k", null)` under namespace `n:`. -/
def denoNullRowState : AdapterDenoKv :=
  { ns := "n:", defaultTtl := 0, db := [(["n:", "k"], ⟨.null, none⟩)],
    initialized := true }

/-- C5 counterexample: after `set(k, null)` the claim wants `exists(k)` to
be `true` on every adapter.  The Deno KV adapter implements `exists` as
`null !== get(key)`, so a stored `null` is reported as absent. -/
theorem C5_counterexample :
    denoInit.set 0 "k" .null none = .ok (true, denoNullRowState) ∧
    (denoNullRowState.get "k").map Prod.fst = .ok .null ∧
    (denoNullRowState.existsKey "k").map Prod.fst = .ok false := by
  refine ⟨rfl, rfl, rfl⟩

/-- A constructed-but-never-initialized memory adapter. -/
def memUninit : AdapterMemory := AdapterMemory.construct "" 0 0

/-- C9 counterexample: the claim wants every operation of the uniform set —
`info` included — to fail with the not-initialized error before
`initialize()`.  But `info()` performs no initialization check: on a
freshly constructed adapter it happily returns the type tag. -/
theorem C9_counterexample :
    memUninit.initialized = false ∧ memUninit.info = ⟨"memory"⟩ := by
  refine ⟨rfl, rfl⟩

/-- The Deno KV state holding local keys `a!b` and `a:x` (namespace `n:`):
`a!b` is stored under the part tuple `["n:", "a!b"]` and `a:x` under
`["n:", "a", "x"]`. -/
def denoTwoKeysState : AdapterDenoKv :=
  { ns := "n:", defaultTtl := 0,
    db := [(["n:", "a!b"], ⟨.str "1", none⟩), (["n:", "a", "x"], ⟨.str "2", none⟩)],
    initialized := true }

unseal List.merge List.mergeSort in
/-- C1 counterexample: the Deno KV adapter never sorts `keys` output — it
returns backend iteration order, which orders by key-part tuples.  The
tuple `["n:", "a", "x"]` precedes `["n:", "a!b"]`, so `keys("*")` yields
`["a:x", "a!b"]`, although lexicographically `"a!b" < "a:x"` (the bang
sorts before the colon), i.e. the result is not sorted by local key. -/
theorem C1_counterexample :
    (denoInit.set 0 "a!b" (.str "1") none).bind
        (fun r => r.2.set 0 "a:x" (.str "2") none) = .ok (true, denoTwoKeysState) ∧
    (denoTwoKeysState.keys "*").map Prod.fst = .ok ["a:x", "a!b"] ∧
    strLt "a!b" "a:x" = true ∧ strLe "a:x" "a!b" = false := by
  refine ⟨rfl, rfl, rfl, rfl⟩

/-- A constructed-but-never-initialized postgres adapter. -/
def pgUninit : AdapterPostgres := AdapterPostgres.construct "" 0

/-- A constructed-but-never-initialized redis adapter. -/
def redisUninit : AdapterRedis := AdapterRedis.construct "r:" 0 false

/-- A constructed-but-never-initialized Deno KV adapter. -/
def denoUninit : AdapterDenoKv := AdapterDenoKv.construct "n:" 0 []

/-- C9 (amended): on a constructed but not yet initialized adapter — each
of the four — every operation of the uniform set except `info` fails with
the not-initialized error instead of performing the operation: `set`,
`get`, `delete`, `exists`, `keys`, `clear`, `setMultiple`, `getMultiple`,
`expire`, `ttl`, `transaction`.  `info`, contrary to the claim, performs
no initialization check and returns the type tag regardless. -/
theorem C9_not_initialized_all_ops :
    (∀ (a : AdapterMemory), a.initialized = false →
      (∀ now k v o, a.set now k v o = .error .notInitialized) ∧
      (∀ now k, a.get now k = .error .notInitialized) ∧
      (∀ k, a.delete k = .error .notInitialized) ∧
      (∀ now k, a.existsKey now k = .error .notInitialized) ∧
      (∀ now p, a.keys now p = .error .notInitialized) ∧
      (∀ now p, a.clear now p = .error .notInitialized) ∧
      (∀ now ps o, a.setMultiple now ps o = .error .notInitialized) ∧
      (∀ now ks, a.getMultiple now ks = .error .notInitialized) ∧
      (∀ now k t, a.expire now k t = .error .notInitialized) ∧
      (∀ now k, a.ttl now k = .error .notInitialized) ∧
      (∀ now ops, a.transaction now ops = .error .notInitialized) ∧
      a.info = ⟨"memory"⟩) ∧
    (∀ (p : AdapterPostgres), p.initialized = false →
      (∀ now k v o, p.set now k v o = .error .notInitialized) ∧
      (∀ now k, p.get now k = .error .notInitialized) ∧
      (∀ k, p.delete k = .error .notInitialized) ∧
      (∀ now k, p.existsKey now k = .error .notInitialized) ∧
      (∀ now pat, p.keys now pat = .error .notInitialized) ∧
      (∀ pat, p.clear pat = .error .notInitialized) ∧
      (∀ now ps o, p.setMultiple now ps o = .error .notInitialized) ∧
      (∀ now ks, p.getMultiple now ks = .error .notInitialized) ∧
      (∀ now k t, p.expire now k t = .error .notInitialized) ∧
      (∀ k, p.ttl k = .error .notInitialized) ∧
      (∀ now ops, p.transaction now ops = .error .notInitialized) ∧
      p.info = ⟨"postgres"⟩) ∧
    (∀ (r : AdapterRedis), r.initialized = false →
      (∀ now k v o, r.set now k v o = .error .notInitialized) ∧
      (∀ now k, r.get now k = .error .notInitialized) ∧
      (∀ now k, r.delete now k = .error .notInitialized) ∧
      (∀ now k, r.existsKey now k = .error .notInitialized) ∧
      (∀ now pat, r.keys now pat = .error .notInitialized) ∧
      (∀ now pat, r.clear now pat = .error .notInitialized) ∧
      (∀ now ps o, r.setMultiple now ps o = .error .notInitialized) ∧
      (∀ now ks, r.getMultiple now ks = .error .notInitialized) ∧
      (∀ now k t, r.expire now k t = .error .notInitialized) ∧
      (∀ now k, r.ttl now k = .error .notInitialized) ∧
      (∀ now ops, r.transaction now ops = .error .notInitialized) ∧
      r.info = ⟨"redis"⟩) ∧
    (∀ (d : AdapterDenoKv), d.initialized = false →
      (∀ now k v o, d.set now k v o = .error .notInitialized) ∧
      (∀ k, d.get k = .error .notInitialized) ∧
      (∀ k, d.existsKey k = .error .notInitialized) ∧
      (∀ k, d.delete k = .error .notInitialized) ∧
      (∀ pat, d.keys pat = .error .notInitialized) ∧
      (∀ pat, d.clear pat = .error .notInitialized) ∧
      (∀ now ps o, d.setMultiple now ps o = .error .notInitialized) ∧
      (∀ ks, d.getMultiple ks = .error .notInitialized) ∧
      (∀ now ops, d.transaction now ops = .error .notInitialized) ∧
      (∀ k t, d.expire k t = .error .notInitialized) ∧
      (∀ k, d.ttl k = .error .notInitialized) ∧
      d.info = ⟨"deno-kv"⟩) := by
  refine ⟨fun a h => ?_, fun p h => ?_, fun r h => ?_, fun d h => ?_⟩
  · exact ⟨fun now k v o => by simp [AdapterMemory.set, h],
      fun now k => by simp [AdapterMemory.get, h],
      fun k => by simp [AdapterMemory.delete, h],
      fun now k => by simp [AdapterMemory.existsKey, h],
      fun now p => by simp [AdapterMemory.keys, h],
      fun now p => by simp [AdapterMemory.clear, AdapterMemory.keys, h],
      fun now ps o => by simp [AdapterMemory.setMultiple, h],
      fun now ks => by simp [AdapterMemory.getMultiple, h],
      fun now k t => by simp [AdapterMemory.expire, h],
      fun now k => by simp [AdapterMemory.ttl, h],
      fun now ops => by simp [AdapterMemory.transaction, h],
      rfl⟩
  · exact ⟨fun now k v o => by simp [AdapterPostgres.set, h],
      fun now k => by simp [AdapterPostgres.get, h],
      fun k => by simp [AdapterPostgres.delete, h],
      fun now k => by simp [AdapterPostgres.existsKey, h],
      fun now pat => by simp [AdapterPostgres.keys, h],
      fun pat => by simp [AdapterPostgres.clear, h],
      fun now ps o => by simp [AdapterPostgres.setMultiple, h],
      fun now ks => by simp [AdapterPostgres.getMultiple, h],
      fun now k t => by simp [AdapterPostgres.expire, h],
      fun k => by simp [AdapterPostgres.ttl, h],
      fun now ops => by simp [AdapterPostgres.transaction, h],
      rfl⟩
  · exact ⟨fun now k v o => by simp [AdapterRedis.set, h],
      fun now k => by simp [AdapterRedis.get, h],
      fun now k => by simp [AdapterRedis.delete, h],
      fun now k => by simp [AdapterRedis.existsKey, h],
      fun now pat => by simp [AdapterRedis.keys, h],
      fun now pat => by simp [AdapterRedis.clear, h],
      fun now ps o => by simp [AdapterRedis.setMultiple, h],
      fun now ks => by simp [AdapterRedis.getMultiple, h],
      fun now k t => by simp [AdapterRedis.expire, h],
      fun now k => by simp [AdapterRedis.ttl, h],
      fun now ops => by simp [AdapterRedis.transaction, h],
      rfl⟩
  · exact ⟨fun now k v o => by simp [AdapterDenoKv.set, h],
      fun k => by simp [AdapterDenoKv.get, h],
      fun k => by simp [AdapterDenoKv.existsKey, h],
      fun k => by simp [AdapterDenoKv.delete, h],
      fun pat => by simp [AdapterDenoKv.keys, h],
      fun pat => by simp [AdapterDenoKv.clear, AdapterDenoKv.keys, h],
      fun now ps o => by simp [AdapterDenoKv.setMultiple, h],
      fun ks => by simp [AdapterDenoKv.getMultiple, h],
      fun now ops => by simp [AdapterDenoKv.transaction, h],
      fun k t => by simp [AdapterDenoKv.expire, h],
      fun k => by simp [AdapterDenoKv.ttl, h],
      rfl⟩

/-- C9 witness: the amended theorem applied to the concrete uninitialized
adapters — one operation plus `info` per adapter. -/
theorem C9_not_initialized_all_ops_witness :
    memUninit.get 0 "k" = .error .notInitialized ∧
    memUninit.info = ⟨"memory"⟩ ∧
    pgUninit.keys 0 "*" = .error .notInitialized ∧
    pgUninit.info = ⟨"postgres"⟩ ∧
    redisUninit.ttl 0 "k" = .error .notInitialized ∧
    redisUninit.info = ⟨"redis"⟩ ∧
    denoUninit.getMultiple ["k"] = .error .notInitialized ∧
    denoUninit.info = ⟨"deno-kv"⟩ :=
  ⟨(C9_not_initialized_all_ops.1 memUninit rfl).2.1 0 "k",
   (C9_not_initialized_all_ops.1 memUninit rfl).2.2.2.2.2.2.2.2.2.2.2,
   (C9_not_initialized_all_ops.2.1 pgUninit rfl).2.2.2.2.1 0 "*",
   (C9_not_initialized_all_ops.2.1 pgUninit rfl).2.2.2.2.2.2.2.2.2.2.2,
   (C9_not_initialized_all_ops.2.2.1 redisUninit rfl).2.2.2.2.2.2.2.2.2.1 0 "k",
   (C9_not_initialized_all_ops.2.2.1 redisUninit rfl).2.2.2.2.2.2.2.2.2.2.2,
   (C9_not_initialized_all_ops.2.2.2 denoUninit rfl).2.2.2.2.2.2.2.1 ["k"],
   (C9_not_initialized_all_ops.2.2.2 denoUninit rfl).2.2.2.2.2.2.2.2.2.2.2⟩

/-! ### Support lemmas: the result of `set` on each adapter -/

theorem mem_set_ok (a : AdapterMemory) (now : Nat) (k : String) (v : JsValue)
    (o : Option Nat) (h : a.initialized = true) :
    a.set now k v o =
      .ok (true,
        { a with
          store := mapSet a.store (a.ns ++ k) (jsonNormalize v),
          expirations :=
            if ttlOr o a.defaultTtl ≠ 0 then
              mapSet a.expirations (a.ns ++ k) (now + ttlOr o a.defaultTtl * 1000)
            else mapDelete a.expirations (a.ns ++ k) }) := by
  by_cases ht : ttlOr o a.defaultTtl = 0 <;> simp [AdapterMemory.set, h, ht]

theorem redis_set_ok (a : AdapterRedis) (now : Nat) (k : String) (v : JsValue)
    (o : Option Nat) (h : a.initialized = true) :
    a.set now k v o =
      .ok (true,
        { a with
          db := mapSet a.db (a.ns ++ k)
            ⟨(jsonNormalize (jsNullCoalesce v)).getD .null,
             if ttlOr o a.defaultTtl ≠ 0 then some (now + ttlOr o a.defaultTtl * 1000)
             else none⟩ }) := by
  by_cases ht : ttlOr o a.defaultTtl = 0 <;> simp [AdapterRedis.set, h, ht]

theorem pg_set_ok (a : AdapterPostgres) (now : Nat) (k : String) (v : JsValue)
    (o : Option Nat) (h : a.initialized = true) :
    a.set now k v o =
      .ok (true,
        { a with
          table := pgUpsert a.table (a.ns ++ k)
            ((jsonNormalize (jsNullCoalesce v)).getD .null)
            (if ttlOr o a.defaultTtl ≠ 0 then some (now + ttlOr o a.defaultTtl * 1000)
             else none) }) := by
  by_cases ht : ttlOr o a.defaultTtl = 0 <;> simp [AdapterPostgres.set, h, ht]

theorem pgUpsert_find_self (t : List PgRow) (k : String) (v : JsValue)
    (e : Option Nat) :
    (pgUpsert t k v e).find? (fun r => r.key == k) = some ⟨k, v, e⟩ := by
  induction t with
  | nil => simp [pgUpsert, List.find?]
  | cons r rest ih =>
    by_cases hk : r.key = k
    · simp [pgUpsert, hk, List.find?]
    · simp [pgUpsert, hk, List.find?, ih]

theorem deno_set_ok (a : AdapterDenoKv) (now : Nat) (k : String) (v : JsValue)
    (o : Option Nat) (h : a.initialized = true) :
    a.set now k v o =
      .ok (true,
        { a with
          db := denoDbSet a.db (denoKvKey a.ns k true)
            ⟨(jsonNormalize (jsUndefToNull v)).getD .null,
             if ttlOr o a.defaultTtl ≠ 0 then some (now + ttlOr o a.defaultTtl * 1000)
             else none⟩ }) := by
  by_cases ht : ttlOr o a.defaultTtl = 0 <;> simp [AdapterDenoKv.set, h, ht]

theorem denoDbGet_denoDbSet_self (db : List (List String × DenoEntry))
    (k : List String) (e : DenoEntry) :
    denoDbGet (denoDbSet db k e) k = some e := by
  induction db with
  | nil => simp [denoDbSet, denoDbGet]
  | cons p rest ih =>
    by_cases hk : p.1 == k
    · simp [denoDbSet, hk, denoDbGet]
    · simp [denoDbSet, hk, denoDbGet, ih]

/-- C3: on every adapter, the effective TTL of `set(k, v, ttl)` resolves
as: the explicit nonzero per-call TTL; else the adapter default TTL; else
no expiry — and a TTL of `0` at both levels stores the entry with no
expiry (it does not expire immediately).  Stated for all four adapters by
reading back the expiry recorded for the key: the memory adapter's
expirations map, the redis `EX`, the postgres `expires_at` column, and the
Deno KV `expireIn` (recorded as the entry's absolute expiry instant). -/
theorem C3_ttl_resolution (now : Nat) (k : String) (v : JsValue) :
    (∀ (a : AdapterMemory) (r : Bool × AdapterMemory) (o : Option Nat),
      a.initialized = true → a.set now k v o = .ok r →
      (∀ t, o = some t → t ≠ 0 →
        mapGet r.2.expirations (a.ns ++ k) = some (now + t * 1000)) ∧
      ((o = none ∨ o = some 0) → a.defaultTtl ≠ 0 →
        mapGet r.2.expirations (a.ns ++ k) = some (now + a.defaultTtl * 1000)) ∧
      ((o = none ∨ o = some 0) → a.defaultTtl = 0 →
        mapGet r.2.expirations (a.ns ++ k) = none)) ∧
    (∀ (a : AdapterRedis) (r : Bool × AdapterRedis) (o : Option Nat),
      a.initialized = true → a.set now k v o = .ok r →
      (∀ t, o = some t → t ≠ 0 →
        (mapGet r.2.db (a.ns ++ k)).map RedisEntry.expiresAt =
          some (some (now + t * 1000))) ∧
      ((o = none ∨ o = some 0) → a.defaultTtl ≠ 0 →
        (mapGet r.2.db (a.ns ++ k)).map RedisEntry.expiresAt =
          some (some (now + a.defaultTtl * 1000))) ∧
      ((o = none ∨ o = some 0) → a.defaultTtl = 0 →
        (mapGet r.2.db (a.ns ++ k)).map RedisEntry.expiresAt = some none)) ∧
    (∀ (a : AdapterPostgres) (r : Bool × AdapterPostgres) (o : Option Nat),
      a.initialized = true → a.set now k v o = .ok r →
      (∀ t, o = some t → t ≠ 0 →
        (r.2.table.find? (fun row => row.key == a.ns ++ k)).map PgRow.expiresAt =
          some (some (now + t * 1000))) ∧
      ((o = none ∨ o = some 0) → a.defaultTtl ≠ 0 →
        (r.2.table.find? (fun row => row.key == a.ns ++ k)).map PgRow.expiresAt =
          some (some (now + a.defaultTtl * 1000))) ∧
      ((o = none ∨ o = some 0) → a.defaultTtl = 0 →
        (r.2.table.find? (fun row => row.key == a.ns ++ k)).map PgRow.expiresAt =
          some none)) ∧
    (∀ (a : AdapterDenoKv) (r : Bool × AdapterDenoKv) (o : Option Nat),
      a.initialized = true → a.set now k v o = .ok r →
      (∀ t, o = some t → t ≠ 0 →
        (denoDbGet r.2.db (denoKvKey a.ns k true)).map DenoEntry.expireAt =
          some (some (now + t * 1000))) ∧
      ((o = none ∨ o = some 0) → a.defaultTtl ≠ 0 →
        (denoDbGet r.2.db (denoKvKey a.ns k true)).map DenoEntry.expireAt =
          some (some (now + a.defaultTtl * 1000))) ∧
      ((o = none ∨ o = some 0) → a.defaultTtl = 0 →
        (denoDbGet r.2.db (denoKvKey a.ns k true)).map DenoEntry.expireAt =
          some none)) := by
  refine ⟨fun a r o h hset => ?_, fun a r o h hset => ?_, fun a r o h hset => ?_,
    fun a r o h hset => ?_⟩
  · rw [mem_set_ok a now k v o h] at hset
    injection hset with hset
    subst hset
    refine ⟨fun t hto ht => ?_, fun ho hd => ?_, fun ho hd => ?_⟩
    · subst hto
      simp [ttlOr, ht, mapGet_mapSet_self]
    · have : ttlOr o a.defaultTtl = a.defaultTtl := by
        rcases ho with h0 | h0 <;> subst h0 <;> simp [ttlOr]
      simp [this, hd, mapGet_mapSet_self]
    · have h3 : ttlOr o a.defaultTtl = 0 := by
        rcases ho with h0 | h0 <;> subst h0 <;> simp [ttlOr, hd]
      simp [h3, mapGet_mapDelete_self]
  · rw [redis_set_ok a now k v o h] at hset
    injection hset with hset
    subst hset
    refine ⟨fun t hto ht => ?_, fun ho hd => ?_, fun ho hd => ?_⟩
    · subst hto
      simp [ttlOr, ht, mapGet_mapSet_self]
    · have : ttlOr o a.defaultTtl = a.defaultTtl := by
        rcases ho with h0 | h0 <;> subst h0 <;> simp [ttlOr]
      simp [this, hd, mapGet_mapSet_self]
    · have h3 : ttlOr o a.defaultTtl = 0 := by
        rcases ho with h0 | h0 <;> subst h0 <;> simp [ttlOr, hd]
      simp [h3, mapGet_mapSet_self]
  · rw [pg_set_ok a now k v o h] at hset
    injection hset with hset
    subst hset
    refine ⟨fun t hto ht => ?_, fun ho hd => ?_, fun ho hd => ?_⟩
    · subst hto
      simp [ttlOr, ht, pgUpsert_find_self]
    · have : ttlOr o a.defaultTtl = a.defaultTtl := by
        rcases ho with h0 | h0 <;> subst h0 <;> simp [ttlOr]
      simp [this, hd, pgUpsert_find_self]
    · have h3 : ttlOr o a.defaultTtl = 0 := by
        rcases ho with h0 | h0 <;> subst h0 <;> simp [ttlOr, hd]
      simp [h3, pgUpsert_find_self]
  · rw [deno_set_ok a now k v o h] at hset
    injection hset with hset
    subst hset
    refine ⟨fun t hto ht => ?_, fun ho hd => ?_, fun ho hd => ?_⟩
    · subst hto
      simp [ttlOr, ht, denoDbGet_denoDbSet_self]
    · have : ttlOr o a.defaultTtl = a.defaultTtl := by
        rcases ho with h0 | h0 <;> subst h0 <;> simp [ttlOr]
      simp [this, hd, denoDbGet_denoDbSet_self]
    · have h3 : ttlOr o a.defaultTtl = 0 := by
        rcases ho with h0 | h0 <;> subst h0 <;> simp [ttlOr, hd]
      simp [h3, denoDbGet_denoDbSet_self]

/-- The memory state after `set("k", null, ttl 2)` at instant 0. -/
def memNullTtlState : AdapterMemory :=
  { ns := "", defaultTtl := 0, ttlCleanupIntervalSec := 0,
    store := [("k", some .null)], expirations := [("k", 2000)],
    initialized := true }

/-- The Deno KV state after `set("k", null, ttl 2)` at instant 0 under
namespace `n:`. -/
def denoTtlState : AdapterDenoKv :=
  { ns := "n:", defaultTtl := 0, db := [(["n:", "k"], ⟨.null, some 2000⟩)],
    initialized := true }

/-- C3 witness: the resolution theorem applied to concrete calls — an
explicit per-call TTL of 2 seconds on an adapter with no default TTL
records the absolute expiry 2000 ms, on the memory adapter and on the
Deno KV adapter. -/
theorem C3_ttl_resolution_witness :
    mapGet memNullTtlState.expirations ("" ++ "k") = some (0 + 2 * 1000) ∧
    (denoDbGet denoTtlState.db (denoKvKey "n:" "k" true)).map DenoEntry.expireAt =
      some (some (0 + 2 * 1000)) :=
  ⟨((C3_ttl_resolution 0 "k" .null).1 memInit (true, memNullTtlState) (some 2)
      rfl rfl).1 2 rfl (by decide),
   ((C3_ttl_resolution 0 "k" .null).2.2.2 denoInit (true, denoTtlState) (some 2)
      rfl rfl).1 2 rfl (by decide)⟩

/-! ### Support lemma: reading a key right after setting it -/

theorem mem_read_after_set (a : AdapterMemory) (now now' : Nat) (k : String)
    (v : JsValue) (o : Option Nat) (r : Bool × AdapterMemory)
    (h : a.initialized = true) (hset : a.set now k v o = .ok r)
    (hlive : ttlOr o a.defaultTtl = 0 ∨ now' ≤ now + ttlOr o a.defaultTtl * 1000) :
    (r.2.get now' k).map Prod.fst = .ok ((jsonNormalize v).getD .null) ∧
    (r.2.existsKey now' k).map Prod.fst = .ok true := by
  rw [mem_set_ok a now k v o h] at hset
  injection hset with hset
  subst hset
  by_cases ht : ttlOr o a.defaultTtl = 0
  · cases hv : jsonNormalize v <;>
      refine ⟨?_, ?_⟩ <;>
      simp [AdapterMemory.get, AdapterMemory.existsKey, h, AdapterMemory.isExpired,
        ht, mapGet_mapDelete_self, mapGet_mapSet_self, mapHas, hv, Except.map]
  · have hnot : ¬(now + ttlOr o a.defaultTtl * 1000 < now') := by
      rcases hlive with h0 | h0
      · exact absurd h0 ht
      · omega
    cases hv : jsonNormalize v <;>
      refine ⟨?_, ?_⟩ <;>
      simp [AdapterMemory.get, AdapterMemory.existsKey, h, AdapterMemory.isExpired,
        ht, hnot, mapGet_mapSet_self, mapHas, hv, Except.map]

theorem pgUpsert_any_self (t : List PgRow) (k : String) (v : JsValue)
    (e : Option Nat) (p : PgRow → Bool) (hp : p ⟨k, v, e⟩ = true) :
    (pgUpsert t k v e).any (fun r => r.key == k && p r) = true := by
  induction t with
  | nil => simp [pgUpsert, List.any, hp]
  | cons r rest ih =>
    by_cases hk : r.key = k
    · simp [pgUpsert, hk, List.any, hp]
    · simp only [pgUpsert, beq_iff_eq, hk, if_false, List.any_cons]
      simp [ih]

/-- C4 (amended): `delete(k)` returns `true` iff an entry for `k` was
present in the backing store at call time — including an entry already
past its expiry that no lazy check or sweep has removed yet; consequently
deleting an absent key returns `false` and the second of two consecutive
deletes returns `false`.  The Deno KV adapter always returns `true` by
documented limitation. -/
theorem C4_delete_semantics :
    (∀ (a : AdapterMemory) (k : String), a.initialized = true →
      (a.delete k).map Prod.fst = .ok (mapHas a.store (a.ns ++ k)) ∧
      (mapHas a.store (a.ns ++ k) = false →
        (a.delete k).map Prod.fst = .ok false) ∧
      (∀ b a', a.delete k = .ok (b, a') →
        (a'.delete k).map Prod.fst = .ok false)) ∧
    (∀ (d : AdapterDenoKv) (k : String), d.initialized = true →
      (d.delete k).map Prod.fst = .ok true) := by
  constructor
  · intro a k h
    refine ⟨by simp [AdapterMemory.delete, h, Except.map], fun habs => ?_,
      fun b a' hdel => ?_⟩
    · simp [AdapterMemory.delete, h, habs, Except.map]
    · simp only [AdapterMemory.delete, h, Bool.not_true, Bool.false_eq_true,
        if_false] at hdel
      injection hdel with hdel
      rw [Prod.mk.injEq] at hdel
      obtain ⟨hb, ha⟩ := hdel
      subst ha
      simp [AdapterMemory.delete, h, mapHas_mapDelete_self, Except.map]
  · intro d k h
    simp [AdapterDenoKv.delete, h, Except.map]

/-- C4 witness: deleting the (already deleted) key a second time returns
`false`. -/
theorem C4_delete_semantics_witness :
    (memInit.delete "k").map Prod.fst = .ok false :=
  (C4_delete_semantics.1 memExpiredRowState "k" rfl).2.2 true memInit rfl

/-- The postgres state after `set("k", null)` (no TTL). -/
def pgNullRowState : AdapterPostgres :=
  { ns := "", defaultTtl := 0, table := [⟨"k", .null, none⟩],
    initialized := true }

/-- C5 (amended): after `set(k, null)` — or `set(k, undefined)`, stored as
`null` — and before any expiry, `exists(k)` returns `true` on the memory,
redis and postgres adapters, distinguishing "present with null value" from
"absent" even though `get` returns `null` in both cases.  The Deno KV
adapter is the documented exception: its `exists` is `get(k) !== null` and
reports a stored `null` as absent. -/
theorem C5_exists_present_null :
    (∀ (a : AdapterMemory) (now now' : Nat) (k : String) (o : Option Nat)
        (r : Bool × AdapterMemory) (v : JsValue),
      a.initialized = true → (v = .null ∨ v = .undef) →
      a.set now k v o = .ok r →
      (ttlOr o a.defaultTtl = 0 ∨ now' ≤ now + ttlOr o a.defaultTtl * 1000) →
      (r.2.existsKey now' k).map Prod.fst = .ok true ∧
      (r.2.get now' k).map Prod.fst = .ok .null) ∧
    (∀ (a : AdapterRedis) (now now' : Nat) (k : String) (o : Option Nat)
        (r : Bool × AdapterRedis) (v : JsValue),
      a.initialized = true → (v = .null ∨ v = .undef) →
      a.set now k v o = .ok r →
      (ttlOr o a.defaultTtl = 0 ∨ now' < now + ttlOr o a.defaultTtl * 1000) →
      (r.2.existsKey now' k).map Prod.fst = .ok true ∧
      (r.2.get now' k).map Prod.fst = .ok .null) ∧
    (∀ (a : AdapterPostgres) (now now' : Nat) (k : String) (o : Option Nat)
        (r : Bool × AdapterPostgres),
      a.initialized = true → a.set now k .null o = .ok r →
      (ttlOr o a.defaultTtl = 0 ∨ now' < now + ttlOr o a.defaultTtl * 1000) →
      (r.2.existsKey now' k).map Prod.fst = .ok true) := by
  refine ⟨?_, ?_, ?_⟩
  · intro a now now' k o r v h hv hset hlive
    have hmain := mem_read_after_set a now now' k v o r h hset hlive
    have hnull : (jsonNormalize v).getD .null = .null := by
      rcases hv with h0 | h0 <;> subst h0 <;> rfl
    exact ⟨hmain.2, hnull ▸ hmain.1⟩
  · intro a now now' k o r v h hv hset hlive
    rw [redis_set_ok a now k v o h] at hset
    injection hset with hset
    subst hset
    have hnull : (jsonNormalize (jsNullCoalesce v)).getD .null = JsValue.null := by
      rcases hv with h0 | h0 <;> subst h0 <;> rfl
    by_cases ht : ttlOr o a.defaultTtl = 0
    · constructor <;>
        simp [AdapterRedis.existsKey, AdapterRedis.get, h, redisDbGet,
          mapGet_mapSet_self, ht, redisLive, hnull, Except.map]
    · have hlt : now' < now + ttlOr o a.defaultTtl * 1000 := by
        rcases hlive with h0 | h0
        · exact absurd h0 ht
        · exact h0
      constructor <;>
        simp [AdapterRedis.existsKey, AdapterRedis.get, h, redisDbGet,
          mapGet_mapSet_self, ht, redisLive, hlt, hnull, Except.map]
  · intro a now now' k o r h hset hlive
    rw [pg_set_ok a now k .null o h] at hset
    injection hset with hset
    subst hset
    have hp : pgLive ⟨a.ns ++ k, (jsonNormalize (jsNullCoalesce .null)).getD .null,
        if ttlOr o a.defaultTtl = 0 then none
        else some (now + ttlOr o a.defaultTtl * 1000)⟩ now' = true := by
      by_cases ht : ttlOr o a.defaultTtl = 0
      · simp [pgLive, ht]
      · have hlt : now' < now + ttlOr o a.defaultTtl * 1000 := by
          rcases hlive with h0 | h0
          · exact absurd h0 ht
          · exact h0
        simp [pgLive, ht, hlt]
    have hany := pgUpsert_any_self a.table (a.ns ++ k)
      ((jsonNormalize (jsNullCoalesce .null)).getD .null)
      (if ttlOr o a.defaultTtl = 0 then none
       else some (now + ttlOr o a.defaultTtl * 1000))
      (fun row => pgLive row now') hp
    simp only [AdapterPostgres.existsKey, h, Bool.not_true, Bool.false_eq_true,
      if_false, ne_eq, ite_not]
    rw [hany]
    rfl

/-- The memory state after `set("k", null)` (no TTL). -/
def memNullState : AdapterMemory :=
  { ns := "", defaultTtl := 0, ttlCleanupIntervalSec := 0,
    store := [("k", some .null)], expirations := [], initialized := true }

/-- The memory state after setting a nested object under `"k"` (no TTL). -/
def memObjState : AdapterMemory :=
  { ns := "", defaultTtl := 0, ttlCleanupIntervalSec := 0,
    store := [("k", some (.obj [("a", .arr [.num 1, .str "x"])]))],
    expirations := [], initialized := true }

/-- The memory state after `set("u", undefined)`: the JS `Map` holds the
value `undefined` (the result of `JSON.stringify(undefined)`). -/
def memUndefState : AdapterMemory :=
  { ns := "", defaultTtl := 0, ttlCleanupIntervalSec := 0,
    store := [("u", none)], expirations := [], initialized := true }

/-- An initialized redis adapter: namespace `r:`, no default TTL, not in
cluster mode. -/
def redisInit : AdapterRedis :=
  AdapterRedis.initializeAdapter (AdapterRedis.construct "r:" 0 false)

/-- The redis state after `set("k", null)` (no TTL) under namespace `r:`. -/
def redisNullState : AdapterRedis :=
  { ns := "r:", defaultTtl := 0, db := [("r:k", ⟨.null, none⟩)],
    isCluster := false, initialized := true }

/-- C5 witness: the amended theorem at concrete calls — `set("k", null)`
then `exists("k")` yields `true` while `get("k")` yields `null`, on the
memory, redis and postgres adapters. -/
theorem C5_exists_present_null_witness :
    (memNullState.existsKey 0 "k").map Prod.fst = .ok true ∧
    (memNullState.get 0 "k").map Prod.fst = .ok .null ∧
    (redisNullState.existsKey 0 "k").map Prod.fst = .ok true ∧
    (redisNullState.get 0 "k").map Prod.fst = .ok .null ∧
    (pgNullRowState.existsKey 0 "k").map Prod.fst = .ok true :=
  ⟨(C5_exists_present_null.1 memInit 0 0 "k" none (true, memNullState) .null
      rfl (Or.inl rfl) rfl (Or.inl rfl)).1,
   (C5_exists_present_null.1 memInit 0 0 "k" none (true, memNullState) .null
      rfl (Or.inl rfl) rfl (Or.inl rfl)).2,
   (C5_exists_present_null.2.1 redisInit 0 0 "k" none (true, redisNullState) .null
      rfl (Or.inl rfl) rfl (Or.inl rfl)).1,
   (C5_exists_present_null.2.1 redisInit 0 0 "k" none (true, redisNullState) .null
      rfl (Or.inl rfl) rfl (Or.inl rfl)).2,
   C5_exists_present_null.2.2 pgInit 0 0 "k" none (true, pgNullRowState)
      rfl rfl (Or.inl rfl)⟩

/-- C8: for every JSON-representable value `v`, `set(k, v)` followed by
`get(k)` before any expiry returns a value deep-equal to `v`; setting
`undefined` round-trips to `null`.  Stated for the memory adapter, whose
store holds the `JSON.stringify` encoding. -/
theorem C8_roundtrip (a : AdapterMemory) (now now' : Nat) (k : String)
    (v : JsValue) (o : Option Nat) (r : Bool × AdapterMemory)
    (h : a.initialized = true) (hset : a.set now k v o = .ok r)
    (hlive : ttlOr o a.defaultTtl = 0 ∨ now' ≤ now + ttlOr o a.defaultTtl * 1000) :
    (isRepresentable v = true → (r.2.get now' k).map Prod.fst = .ok v) ∧
    (v = .undef → (r.2.get now' k).map Prod.fst = .ok .null) := by
  have hmain := mem_read_after_set a now now' k v o r h hset hlive
  constructor
  · intro hrep
    have : (jsonNormalize v).getD .null = v := by
      rw [jsonNormalize_of_representable v hrep]; rfl
    exact this ▸ hmain.1
  · intro hu
    subst hu
    exact hmain.1

/-- C8 witness: a concrete nested object round-trips through
`set`/`get`, and `undefined` comes back as `null`. -/
theorem C8_roundtrip_witness :
    (memObjState.get 0 "k").map Prod.fst =
      .ok (.obj [("a", .arr [.num 1, .str "x"])]) ∧
    (memUndefState.get 0 "u").map Prod.fst = .ok .null :=
  ⟨(C8_roundtrip memInit 0 0 "k" (.obj [("a", .arr [.num 1, .str "x"])]) none
      (true, memObjState) rfl rfl (Or.inl rfl)).1 rfl,
   (C8_roundtrip memInit 0 0 "u" .undef none
      (true, memUndefState) rfl rfl (Or.inl rfl)).2 rfl⟩

/-! ### Lexicographic comparison is transitive and total -/

theorem charListLe_trans :
    ∀ (a b c : List Char), charListLe a b → charListLe b c → charListLe a c
  | [], _, _, _, _ => by simp [charListLe]
  | _ :: _, [], _, hab, _ => by simp [charListLe] at hab
  | _ :: _, _ :: _, [], _, hbc => by simp [charListLe] at hbc
  | x :: xs, y :: ys, z :: zs, hab, hbc => by
    simp only [charListLe, Bool.or_eq_true, Bool.and_eq_true, beq_iff_eq,
      decide_eq_true_eq] at hab hbc ⊢
    rcases hab with hxy | ⟨hxy, htab⟩
    · rcases hbc with hyz | ⟨hyz, _⟩
      · exact Or.inl (lt_trans hxy hyz)
      · exact Or.inl (hyz ▸ hxy)
    · rcases hbc with hyz | ⟨hyz, htbc⟩
      · exact Or.inl (hxy ▸ hyz)
      · exact Or.inr ⟨hxy.trans hyz, charListLe_trans xs ys zs htab htbc⟩

theorem charListLe_total :
    ∀ (a b : List Char), charListLe a b || charListLe b a
  | [], _ => by simp [charListLe]
  | _ :: _, [] => by simp [charListLe]
  | x :: xs, y :: ys => by
    simp only [charListLe, Bool.or_eq_true, Bool.and_eq_true, beq_iff_eq,
      decide_eq_true_eq]
    rcases lt_trichotomy x y with hlt | heq | hgt
    · exact Or.inl (Or.inl hlt)
    · rcases Bool.or_eq_true _ _ |>.mp (charListLe_total xs ys) with h | h
      · exact Or.inl (Or.inr ⟨heq, h⟩)
      · exact Or.inr (Or.inr ⟨heq.symm, h⟩)
    · exact Or.inr (Or.inl hgt)

theorem strLe_trans : ∀ (a b c : String), strLe a b → strLe b c → strLe a c :=
  fun a b c hab hbc => charListLe_trans a.data b.data c.data hab hbc

theorem strLe_total : ∀ (a b : String), strLe a b || strLe b a :=
  fun a b => charListLe_total a.data b.data

/-- The memory state after setting `"b"`, `"a"`, `"c"` in that order. -/
def memAbcState : AdapterMemory :=
  { ns := "", defaultTtl := 0, ttlCleanupIntervalSec := 0,
    store := [("b", some (.str "1")), ("a", some (.str "2")),
              ("c", some (.str "3"))],
    expirations := [], initialized := true }

/-- The postgres state holding live rows `"b"` and `"a"` (empty
namespace). -/
def pgBaState : AdapterPostgres :=
  { ns := "", defaultTtl := 0,
    table := [⟨"b", .str "1", none⟩, ⟨"a", .str "2", none⟩],
    initialized := true }

/-- The redis state holding live keys `y` and `x` under namespace `r:`. -/
def redisYxState : AdapterRedis :=
  { ns := "r:", defaultTtl := 0,
    db := [("r:y", ⟨.str "1", none⟩), ("r:x", ⟨.str "2", none⟩)],
    isCluster := false, initialized := true }

unseal List.merge List.mergeSort in
/-- C1 (amended): the memory, postgres and redis adapters return
`keys(pattern)` sorted lexicographically by local key for every state and
pattern — each ends in a `toSorted()` — in particular after setting `"b"`,
`"a"`, `"c"` the memory `keys("*")` is `["a","b","c"]`.  The Deno KV
adapter, by contrast, returns backend iteration order without sorting (see
its counterexample). -/
theorem C1_keys_sorted :
    (∀ (a : AdapterMemory) (now : Nat) (pattern : String)
        (r : List String × AdapterMemory),
      a.initialized = true → a.keys now pattern = .ok r →
      r.1.Pairwise (fun x y => strLe x y = true)) ∧
    (∀ (a : AdapterPostgres) (now : Nat) (pattern : String)
        (r : List String × AdapterPostgres),
      a.initialized = true → a.keys now pattern = .ok r →
      r.1.Pairwise (fun x y => strLe x y = true)) ∧
    (∀ (a : AdapterRedis) (now : Nat) (pattern : String)
        (r : List String × AdapterRedis),
      a.initialized = true → a.keys now pattern = .ok r →
      r.1.Pairwise (fun x y => strLe x y = true)) ∧
    (memAbcState.keys 0 "*").map Prod.fst = .ok ["a", "b", "c"] := by
  refine ⟨?_, ?_, ?_, ?_⟩
  · intro a now pattern r h hkeys
    have hsorted :=
      List.sorted_mergeSort strLe_trans strLe_total
        (((keysFilterLoop a now (a.store.map Prod.fst)).1).map
          (fun k => sliceFrom a.ns.length k))
    simp only [AdapterMemory.keys, h, Bool.not_true, Bool.false_eq_true,
      if_false] at hkeys
    by_cases hp : pattern = "*"
    · rw [if_pos hp] at hkeys
      injection hkeys with hkeys
      rw [Prod.mk.injEq] at hkeys
      obtain ⟨h1, -⟩ := hkeys
      exact h1 ▸ hsorted
    · rw [if_neg hp] at hkeys
      injection hkeys with hkeys
      rw [Prod.mk.injEq] at hkeys
      obtain ⟨h1, -⟩ := hkeys
      exact h1 ▸ (hsorted.filter _)
  · intro a now pattern r h hkeys
    simp only [AdapterPostgres.keys, h, Bool.not_true, Bool.false_eq_true,
      if_false] at hkeys
    injection hkeys with hkeys
    rw [Prod.mk.injEq] at hkeys
    obtain ⟨h1, -⟩ := hkeys
    exact h1 ▸ List.sorted_mergeSort strLe_trans strLe_total _
  · intro a now pattern r h hkeys
    simp only [AdapterRedis.keys, h, Bool.not_true, Bool.false_eq_true,
      if_false] at hkeys
    by_cases hc : a.isCluster
    · rw [if_pos hc] at hkeys
      exact Except.noConfusion hkeys
    · rw [if_neg hc] at hkeys
      injection hkeys with hkeys
      rw [Prod.mk.injEq] at hkeys
      obtain ⟨h1, -⟩ := hkeys
      exact h1 ▸ List.sorted_mergeSort strLe_trans strLe_total _
  · rfl

unseal List.merge List.mergeSort regexMatch in
/-- C1 witness: the sortedness theorem applied to the concrete
`b`/`a`/`c` memory state, the `b`/`a` postgres state and the `y`/`x`
redis state. -/
theorem C1_keys_sorted_witness :
    (["a", "b", "c"] : List String).Pairwise (fun x y => strLe x y = true) ∧
    (["a", "b"] : List String).Pairwise (fun x y => strLe x y = true) ∧
    (["x", "y"] : List String).Pairwise (fun x y => strLe x y = true) :=
  ⟨C1_keys_sorted.1 memAbcState 0 "*" (["a", "b", "c"], memAbcState) rfl rfl,
   C1_keys_sorted.2.1 pgBaState 0 "*" (["a", "b"], pgBaState) rfl rfl,
   C1_keys_sorted.2.2.1 redisYxState 0 "*" (["x", "y"], redisYxState) rfl rfl⟩

/-- The memory state after `set("x", "v")` (no TTL). -/
def memXState : AdapterMemory :=
  { ns := "", defaultTtl := 0, ttlCleanupIntervalSec := 0,
    store := [("x", some (.str "v"))], expirations := [], initialized := true }

unseal List.merge List.mergeSort regexMatch in
/-- C7 counterexample: the claim says every non-wildcard pattern character
matches only itself.  But the pattern is converted to a regex without
escaping, so the pattern `"."` — which contains no `*` or `?` — becomes
the regex any-character and matches the key `"x"`: `keys(".")` returns
`["x"]` although `"." ≠ "x"`. -/
theorem C7_counterexample :
    memInit.set 0 "x" (.str "v") none = .ok (true, memXState) ∧
    (memXState.keys 0 ".").map Prod.fst = .ok ["x"] ∧
    ("." : String) ≠ "x" := by
  refine ⟨rfl, rfl, by decide⟩

/-! ### The glob semantics, spec side

`GlobSpec p s` states, following the specification's words amended by the
unescaped-dot counterexample: star matches zero or more arbitrary
characters, question mark exactly one, the (regex-leaked) dot also exactly
one, every other non-regex-special pattern character only itself,
anchored over the whole string.  Patterns containing the other regex
metacharacters (`regexSpecial`) are outside the relation and outside
every theorem built on it. -/

/-- Declarative matching relation of a glob pattern against a string. -/
inductive GlobSpec : List Char → List Char → Prop where
  | nil : GlobSpec [] []
  | starSkip {ps s} : GlobSpec ps s → GlobSpec ('*' :: ps) s
  | starTake {ps c s} : GlobSpec ('*' :: ps) s → GlobSpec ('*' :: ps) (c :: s)
  | anyQ {ps c s} : GlobSpec ps s → GlobSpec ('?' :: ps) (c :: s)
  | anyDot {ps c s} : GlobSpec ps s → GlobSpec ('.' :: ps) (c :: s)
  | lit {c ps s} : c ≠ '*' → c ≠ '?' → c ≠ '.' → regexSpecial c = false →
      GlobSpec ps s → GlobSpec (c :: ps) (c :: s)

theorem globToTokens_nil : globToTokens [] = [] := rfl

theorem globToTokens_star (r : List Char) :
    globToTokens ('*' :: r) = .anyStar :: globToTokens r := by
  simp [globToTokens]

theorem globToTokens_q (r : List Char) :
    globToTokens ('?' :: r) = .anyOne :: globToTokens r := by
  simp [globToTokens]

theorem globToTokens_dot (r : List Char) :
    globToTokens ('.' :: r) = .anyOne :: globToTokens r := by
  simp [globToTokens]

theorem globToTokens_lit (c : Char) (r : List Char)
    (h1 : c ≠ '*') (h2 : c ≠ '?') (h3 : c ≠ '.') :
    globToTokens (c :: r) = .lit c :: globToTokens r := by
  simp [globToTokens, h1, h2, h3]

theorem regexMatch_nil_nil : regexMatch [] [] = true := by
  simp [regexMatch]

theorem regexMatch_nil_cons (c : Char) (s : List Char) :
    regexMatch [] (c :: s) = false := by
  simp [regexMatch]

theorem regexMatch_star_nil (ts : List RegexTok) :
    regexMatch (.anyStar :: ts) [] = regexMatch ts [] := by
  simp [regexMatch]

theorem regexMatch_star_cons (ts : List RegexTok) (c : Char) (s : List Char) :
    regexMatch (.anyStar :: ts) (c :: s) =
      (regexMatch ts (c :: s) || regexMatch (.anyStar :: ts) s) := by
  rw [regexMatch]

theorem regexMatch_anyOne_nil (ts : List RegexTok) :
    regexMatch (.anyOne :: ts) [] = false := by
  simp [regexMatch]

theorem regexMatch_anyOne_cons (ts : List RegexTok) (c : Char) (s : List Char) :
    regexMatch (.anyOne :: ts) (c :: s) = regexMatch ts s := by
  simp [regexMatch]

theorem regexMatch_lit_nil (c : Char) (ts : List RegexTok) :
    regexMatch (.lit c :: ts) [] = false := by
  simp [regexMatch]

theorem regexMatch_lit_cons (c : Char) (ts : List RegexTok) (d : Char)
    (s : List Char) :
    regexMatch (.lit c :: ts) (d :: s) = (c == d && regexMatch ts s) := by
  simp [regexMatch]

/-- Soundness: a declarative match is accepted by the matcher. -/
theorem globSpec_sound : ∀ {p s : List Char}, GlobSpec p s →
    regexMatch (globToTokens p) s = true := by
  intro p s h
  induction h with
  | nil => exact regexMatch_nil_nil
  | @starSkip ps s1 h' ih =>
    rw [globToTokens_star]
    cases s1 with
    | nil => rw [regexMatch_star_nil]; exact ih
    | cons d s2 => rw [regexMatch_star_cons]; simp [ih]
  | @starTake ps c s1 h' ih =>
    rw [globToTokens_star] at ih ⊢
    rw [regexMatch_star_cons]
    simp [ih]
  | anyQ h' ih => rw [globToTokens_q, regexMatch_anyOne_cons]; exact ih
  | anyDot h' ih => rw [globToTokens_dot, regexMatch_anyOne_cons]; exact ih
  | @lit c ps s1 h1 h2 h3 h4 h' ih =>
    rw [globToTokens_lit c ps h1 h2 h3, regexMatch_lit_cons]
    simp [ih]

/-- Completeness over the modeled pattern alphabet: every string the
matcher accepts on a pattern free of the unmodeled regex metacharacters
matches declaratively. -/
theorem globSpec_complete : ∀ (p s : List Char),
    p.all (fun c => !regexSpecial c) = true →
    regexMatch (globToTokens p) s = true → GlobSpec p s
  | [], [], _, _ => .nil
  | [], c :: s, _, h => by
    rw [globToTokens_nil, regexMatch_nil_cons] at h
    exact absurd h (by simp)
  | c :: ps, [], hp, h => by
    have hps : ps.all (fun c => !regexSpecial c) = true := by
      simp only [List.all_cons, Bool.and_eq_true] at hp
      exact hp.2
    by_cases hstar : c = '*'
    · subst hstar
      rw [globToTokens_star, regexMatch_star_nil] at h
      exact .starSkip (globSpec_complete ps [] hps h)
    · by_cases hq : c = '?'
      · subst hq
        rw [globToTokens_q, regexMatch_anyOne_nil] at h
        exact absurd h (by simp)
      · by_cases hdot : c = '.'
        · subst hdot
          rw [globToTokens_dot, regexMatch_anyOne_nil] at h
          exact absurd h (by simp)
        · rw [globToTokens_lit c ps hstar hq hdot, regexMatch_lit_nil] at h
          exact absurd h (by simp)
  | c :: ps, d :: s', hp, h => by
    have hps : ps.all (fun c => !regexSpecial c) = true := by
      simp only [List.all_cons, Bool.and_eq_true] at hp
      exact hp.2
    have hpc : regexSpecial c = false := by
      simp only [List.all_cons, Bool.and_eq_true, Bool.not_eq_true'] at hp
      exact hp.1
    by_cases hstar : c = '*'
    · subst hstar
      rw [globToTokens_star, regexMatch_star_cons, ← globToTokens_star,
        Bool.or_eq_true] at h
      rcases h with h | h
      · exact .starSkip (globSpec_complete ps (d :: s') hps h)
      · exact .starTake (globSpec_complete ('*' :: ps) s' hp h)
    · by_cases hq : c = '?'
      · subst hq
        rw [globToTokens_q, regexMatch_anyOne_cons] at h
        exact .anyQ (globSpec_complete ps s' hps h)
      · by_cases hdot : c = '.'
        · subst hdot
          rw [globToTokens_dot, regexMatch_anyOne_cons] at h
          exact .anyDot (globSpec_complete ps s' hps h)
        · rw [globToTokens_lit c ps hstar hq hdot, regexMatch_lit_cons,
            Bool.and_eq_true, beq_iff_eq] at h
          obtain ⟨rfl, h⟩ := h
          exact .lit hstar hq hdot hpc (globSpec_complete ps s' hps h)
  termination_by p s => (s.length, p.length)

/-- The executable matcher agrees with the declarative relation, on
patterns free of the unmodeled regex metacharacters. -/
theorem glob_iff (p s : List Char)
    (hp : p.all (fun c => !regexSpecial c) = true) :
    regexMatch (globToTokens p) s = true ↔ GlobSpec p s :=
  ⟨globSpec_complete p s hp, globSpec_sound⟩

/-- The expiry status of a key, read without the lazy deletion. -/
def isExpiredPure (a : AdapterMemory) (now : Nat) (k : String) : Bool :=
  match mapGet a.expirations k with
  | none => false
  | some e => now > e

theorem isExpired_fst (a : AdapterMemory) (now : Nat) (k : String) :
    (a.isExpired now k).1 = isExpiredPure a now k := by
  unfold AdapterMemory.isExpired isExpiredPure
  rcases hg : mapGet a.expirations k with _ | e
  · rfl
  · by_cases hlt : now > e <;> simp [hlt]

theorem isExpired_false_snd (a : AdapterMemory) (now : Nat) (k : String)
    (h : (a.isExpired now k).1 = false) : (a.isExpired now k).2 = a := by
  unfold AdapterMemory.isExpired at h ⊢
  rcases hg : mapGet a.expirations k with _ | e
  · rfl
  · rw [hg] at h
    by_cases hlt : now > e
    · simp [hlt] at h
    · simp [hlt]

theorem isExpiredPure_isExpired_ne (a : AdapterMemory) (now : Nat)
    (k k' : String) (h : k' ≠ k) :
    isExpiredPure ((a.isExpired now k).2) now k' = isExpiredPure a now k' := by
  unfold AdapterMemory.isExpired
  rcases hg : mapGet a.expirations k with _ | e
  · rfl
  · by_cases hlt : now > e
    · simp only [hlt, if_true, isExpiredPure,
        mapGet_mapDelete_ne a.expirations k k' h]
    · simp [hlt]

/-- The mutating filter pass of `keys` computes, over distinct keys, the
plain filter by the pure expiry status. -/
theorem keysFilterLoop_fst : ∀ (ks : List String) (a : AdapterMemory) (now : Nat),
    ks.Nodup →
    (keysFilterLoop a now ks).1 = ks.filter (fun k => !(isExpiredPure a now k))
  | [], _, _, _ => rfl
  | k :: ks, a, now, hnd => by
    have hk : k ∉ ks := (List.nodup_cons.mp hnd).1
    have hnd' : ks.Nodup := (List.nodup_cons.mp hnd).2
    have hih := keysFilterLoop_fst ks ((a.isExpired now k).2) now hnd'
    have hcongr : ks.filter
        (fun k' => !(isExpiredPure ((a.isExpired now k).2) now k')) =
        ks.filter (fun k' => !(isExpiredPure a now k')) :=
      List.filter_congr (fun k' hk' => by
        rw [isExpiredPure_isExpired_ne a now k k' (fun he => hk (he ▸ hk'))])
    by_cases hexp : isExpiredPure a now k
    · simp [keysFilterLoop, isExpired_fst, hexp, hih, hcongr]
    · simp [keysFilterLoop, isExpired_fst, hexp, hih, hcongr]

/-- C7 (amended): for patterns built from `*`, `?`, `.` and ordinary
characters — patterns containing any other regex metacharacter keep its
regex meaning or make the `RegExp` constructor throw, and are outside
this analysis — the in-memory `keys(pattern)` matcher interprets the
pattern as an anchored restricted glob over the full local key in which
`*` matches zero or more arbitrary characters, `?` exactly one, and —
because the glob-to-regex translation performs no escaping — a literal `.`
in the pattern also matches exactly one arbitrary character, while every
other character of such a pattern matches only itself; the pattern is
evaluated only against non-expired keys.  Stated as: the matcher agrees
with the declarative relation `GlobSpec` on the modeled pattern alphabet,
the mutating filter pass is the plain filter by expiry status, and for a
non-star pattern over that alphabet `keys` returns exactly the sorted
de-namespaced live keys accepted by the matcher. -/
theorem C7_glob_semantics :
    (∀ (p s : List Char), p.all (fun c => !regexSpecial c) = true →
      (regexMatch (globToTokens p) s = true ↔ GlobSpec p s)) ∧
    (∀ (ks : List String) (a : AdapterMemory) (now : Nat), ks.Nodup →
      (keysFilterLoop a now ks).1 =
        ks.filter (fun k => !(isExpiredPure a now k))) ∧
    (∀ (a : AdapterMemory) (now : Nat) (pattern : String)
        (r : List String × AdapterMemory),
      a.initialized = true → (a.store.map Prod.fst).Nodup → pattern ≠ "*" →
      pattern.data.all (fun c => !regexSpecial c) = true →
      a.keys now pattern = .ok r →
      r.1 = ((((a.store.map Prod.fst).filter
          (fun k => !(isExpiredPure a now k))).map
            (fun k => sliceFrom a.ns.length k)).mergeSort strLe).filter
        (fun k => regexMatch (globToTokens pattern.data) k.data)) := by
  refine ⟨glob_iff, keysFilterLoop_fst, ?_⟩
  intro a now pattern r h hnd hp _halpha hkeys
  simp only [AdapterMemory.keys, h, Bool.not_true, Bool.false_eq_true,
    if_false] at hkeys
  rw [if_neg hp] at hkeys
  injection hkeys with hkeys
  rw [Prod.mk.injEq] at hkeys
  obtain ⟨h1, -⟩ := hkeys
  rw [← h1, keysFilterLoop_fst _ _ _ hnd]

/-- C7 witness: the amended theorem at concrete inputs — the question mark
accepts an arbitrary single character, and the filter pass over the
concrete store keeps the single live key. -/
theorem C7_glob_semantics_witness :
    regexMatch (globToTokens ['?']) ['z'] = true ∧
    (keysFilterLoop memXState 0 ["x"]).1 = ["x"] :=
  ⟨(C7_glob_semantics.1 ['?'] ['z'] (by decide)).mpr (.anyQ .nil),
   (C7_glob_semantics.2.1 ["x"] memXState 0 (by simp)).trans rfl⟩

/-! ### Key-set lemmas for the map model -/

theorem mapHas_iff_mem {α : Type} (m : List (String × α)) (k : String) :
    mapHas m k = true ↔ k ∈ m.map Prod.fst := by
  induction m with
  | nil => simp [mapHas, mapGet]
  | cons p rest ih =>
    obtain ⟨ka, va⟩ := p
    by_cases hk : ka = k
    · simp [mapHas, mapGet, hk]
    · simpa [mapHas, mapGet, hk, Ne.symm hk] using ih

theorem mem_keys_mapSet {α : Type} (m : List (String × α)) (k x : String) (v : α) :
    x ∈ (mapSet m k v).map Prod.fst ↔ x = k ∨ x ∈ m.map Prod.fst := by
  induction m with
  | nil => simp [mapSet]
  | cons p rest ih =>
    obtain ⟨ka, va⟩ := p
    by_cases hk : ka = k
    · subst hk
      by_cases hx : x = ka <;> simp [mapSet, hx]
    · by_cases hx : x = ka <;> simp [mapSet, hk, hx, ih]

theorem nodup_keys_mapSet {α : Type} (m : List (String × α)) (k : String) (v : α)
    (h : (m.map Prod.fst).Nodup) : ((mapSet m k v).map Prod.fst).Nodup := by
  induction m with
  | nil => simp [mapSet]
  | cons p rest ih =>
    obtain ⟨ka, va⟩ := p
    rw [List.map_cons, List.nodup_cons] at h
    by_cases hk : ka = k
    · subst hk
      simpa [mapSet] using h
    · have hstep : mapSet ((ka, va) :: rest) k v = (ka, va) :: mapSet rest k v := by
        simp [mapSet, hk]
      rw [hstep, List.map_cons, List.nodup_cons]
      refine ⟨?_, ih h.2⟩
      intro hmem
      rcases (mem_keys_mapSet rest k ka v).mp hmem with h0 | h0
      · exact hk h0
      · exact h.1 h0

theorem mapDelete_sublist {α : Type} (m : List (String × α)) (k : String) :
    List.Sublist (mapDelete m k) m := by
  induction m with
  | nil => simp [mapDelete]
  | cons p rest ih =>
    obtain ⟨ka, va⟩ := p
    by_cases hk : ka = k
    · simpa [mapDelete, hk] using ih.cons (ka, va)
    · simpa [mapDelete, hk] using ih.cons₂ (ka, va)

theorem nodup_keys_mapDelete {α : Type} (m : List (String × α)) (k : String)
    (h : (m.map Prod.fst).Nodup) : ((mapDelete m k).map Prod.fst).Nodup :=
  h.sublist ((mapDelete_sublist m k).map Prod.fst)

theorem mapHas_mapSet_ne {α : Type} (m : List (String × α)) (k k' : String)
    (v : α) (h : k' ≠ k) : mapHas (mapSet m k v) k' = mapHas m k' := by
  simp [mapHas, mapGet_mapSet_ne m k k' v h]

theorem mapHas_mapDelete_ne {α : Type} (m : List (String × α)) (k k' : String)
    (h : k' ≠ k) : mapHas (mapDelete m k) k' = mapHas m k' := by
  simp [mapHas, mapGet_mapDelete_ne m k k' h]

theorem eq_of_mem_nodup_keys {α : Type} {m : List (String × α)}
    (hnd : (m.map Prod.fst).Nodup) {p q : String × α}
    (hp : p ∈ m) (hq : q ∈ m) (hk : p.1 = q.1) : p = q := by
  induction m with
  | nil => cases hp
  | cons x rest ih =>
    rw [List.map_cons, List.nodup_cons] at hnd
    rcases List.mem_cons.mp hp with rfl | hp'
    · rcases List.mem_cons.mp hq with rfl | hq'
      · rfl
      · exact absurd (hk ▸ List.mem_map_of_mem Prod.fst hq') hnd.1
    · rcases List.mem_cons.mp hq with rfl | hq'
      · exact absurd (hk ▸ List.mem_map_of_mem Prod.fst hp') hnd.1
      · exact ih hnd.2 hp' hq'

/-! ### The co-indexed-maps invariant of the memory adapter -/

/-- The claimed invariant: every key with an expiry entry is stored. -/
def expSubStore (a : AdapterMemory) : Prop :=
  ∀ k, mapHas a.expirations k = true → mapHas a.store k = true

/-- Well-formedness a JS `Map` provides by construction: distinct keys. -/
def memKeysNodup (a : AdapterMemory) : Prop :=
  (a.store.map Prod.fst).Nodup ∧ (a.expirations.map Prod.fst).Nodup

/-- The invariant preserved by every memory operation: distinct map keys
(the `Map` well-formedness) and no orphaned expiry entries. -/
def MemInvariant (a : AdapterMemory) : Prop :=
  memKeysNodup a ∧ expSubStore a

theorem inv_isExpired (a : AdapterMemory) (now : Nat) (k : String)
    (h : MemInvariant a) : MemInvariant (a.isExpired now k).2 := by
  unfold AdapterMemory.isExpired
  rcases hg : mapGet a.expirations k with _ | e
  · exact h
  · by_cases hlt : now > e
    · simp only [hlt, if_true]
      obtain ⟨⟨hs, he⟩, hsub⟩ := h
      refine ⟨⟨nodup_keys_mapDelete _ _ hs, nodup_keys_mapDelete _ _ he⟩, ?_⟩
      intro k' hk'
      by_cases hkk : k' = k
      · subst hkk
        simp [mapHas, mapGet_mapDelete_self] at hk'
      · rw [mapHas_mapDelete_ne _ _ _ hkk] at hk'
        rw [mapHas_mapDelete_ne _ _ _ hkk]
        exact hsub k' hk'
    · simpa [hlt] using h

theorem inv_set (a : AdapterMemory) (now : Nat) (k : String) (v : JsValue)
    (o : Option Nat) (r : Bool × AdapterMemory) (h : MemInvariant a)
    (hset : a.set now k v o = .ok r) : MemInvariant r.2 := by
  cases hb : a.initialized with
  | false => simp [AdapterMemory.set, hb] at hset
  | true =>
    rw [mem_set_ok a now k v o hb] at hset
    injection hset with hset
    subst hset
    obtain ⟨⟨hs, he⟩, hsub⟩ := h
    refine ⟨⟨nodup_keys_mapSet _ _ _ hs, ?_⟩, ?_⟩
    · by_cases ht : ttlOr o a.defaultTtl = 0
      · simpa [ht] using nodup_keys_mapDelete a.expirations (a.ns ++ k) he
      · simpa [ht] using
          nodup_keys_mapSet a.expirations (a.ns ++ k)
            (now + ttlOr o a.defaultTtl * 1000) he
    · intro k' hk'
      show mapHas (mapSet a.store (a.ns ++ k) (jsonNormalize v)) k' = true
      by_cases hkk : k' = a.ns ++ k
      · subst hkk
        exact mapHas_mapSet_self _ _ _
      · rw [mapHas_mapSet_ne _ _ _ _ hkk]
        apply hsub
        by_cases ht : ttlOr o a.defaultTtl = 0
        · simp only [ht] at hk'
          rw [show mapHas (if (0 : Nat) ≠ 0 then
              mapSet a.expirations (a.ns ++ k) (now + 0 * 1000)
              else mapDelete a.expirations (a.ns ++ k)) k' =
              mapHas (mapDelete a.expirations (a.ns ++ k)) k' from by simp,
            mapHas_mapDelete_ne _ _ _ hkk] at hk'
          exact hk'
        · simp only [ht] at hk'
          rw [show mapHas (if ttlOr o a.defaultTtl ≠ 0 then
              mapSet a.expirations (a.ns ++ k) (now + ttlOr o a.defaultTtl * 1000)
              else mapDelete a.expirations (a.ns ++ k)) k' =
              mapHas (mapSet a.expirations (a.ns ++ k)
                (now + ttlOr o a.defaultTtl * 1000)) k' from by simp [ht],
            mapHas_mapSet_ne _ _ _ _ hkk] at hk'
          exact hk'

theorem inv_delete_maps (a : AdapterMemory) (k : String) (h : MemInvariant a) :
    MemInvariant { a with store := mapDelete a.store k,
                          expirations := mapDelete a.expirations k } := by
  obtain ⟨⟨hs, he⟩, hsub⟩ := h
  refine ⟨⟨nodup_keys_mapDelete _ _ hs, nodup_keys_mapDelete _ _ he⟩, ?_⟩
  intro k' hk'
  show mapHas (mapDelete a.store k) k' = true
  by_cases hkk : k' = k
  · subst hkk
    rw [show mapHas (mapDelete a.expirations k') k' =
      mapHas (mapDelete a.expirations k') k' from rfl] at hk'
    simp [mapHas, mapGet_mapDelete_self] at hk'
  · rw [mapHas_mapDelete_ne _ _ _ hkk] at hk'
    rw [mapHas_mapDelete_ne _ _ _ hkk]
    exact hsub k' hk'

theorem inv_delete (a : AdapterMemory) (k : String) (r : Bool × AdapterMemory)
    (h : MemInvariant a) (hdel : a.delete k = .ok r) : MemInvariant r.2 := by
  cases hb : a.initialized with
  | false => simp [AdapterMemory.delete, hb] at hdel
  | true =>
    simp only [AdapterMemory.delete, hb, Bool.not_true, Bool.false_eq_true,
      if_false] at hdel
    injection hdel with hdel
    subst hdel
    exact inv_delete_maps a (a.ns ++ k) h

theorem inv_get (a : AdapterMemory) (now : Nat) (k : String)
    (r : JsValue × AdapterMemory) (h : MemInvariant a)
    (hget : a.get now k = .ok r) : MemInvariant r.2 := by
  cases hb : a.initialized with
  | false => simp [AdapterMemory.get, hb] at hget
  | true =>
    have hinv := inv_isExpired a now (a.ns ++ k) h
    simp only [AdapterMemory.get, hb, Bool.not_true, Bool.false_eq_true,
      if_false] at hget
    by_cases hexp : (a.isExpired now (a.ns ++ k)).1 = true
    · rw [if_pos hexp] at hget
      injection hget with hget
      subst hget
      exact hinv
    · rw [if_neg hexp] at hget
      rcases hg : mapGet (a.isExpired now (a.ns ++ k)).2.store (a.ns ++ k)
        with _ | v'
      · rw [hg] at hget
        injection hget with hget
        subst hget
        exact hinv
      · rw [hg] at hget
        cases v' with
        | none =>
          injection hget with hget
          subst hget
          exact hinv
        | some w =>
          injection hget with hget
          subst hget
          exact hinv

theorem inv_existsKey (a : AdapterMemory) (now : Nat) (k : String)
    (r : Bool × AdapterMemory) (h : MemInvariant a)
    (hex : a.existsKey now k = .ok r) : MemInvariant r.2 := by
  cases hb : a.initialized with
  | false => simp [AdapterMemory.existsKey, hb] at hex
  | true =>
    have hinv := inv_isExpired a now (a.ns ++ k) h
    simp only [AdapterMemory.existsKey, hb, Bool.not_true, Bool.false_eq_true,
      if_false] at hex
    by_cases hexp : (a.isExpired now (a.ns ++ k)).1 = true
    · rw [if_pos hexp] at hex
      injection hex with hex
      subst hex
      exact hinv
    · rw [if_neg hexp] at hex
      injection hex with hex
      subst hex
      exact hinv

theorem inv_ttl (a : AdapterMemory) (now : Nat) (k : String)
    (r : TtlResult × AdapterMemory) (h : MemInvariant a)
    (httl : a.ttl now k = .ok r) : MemInvariant r.2 := by
  cases hb : a.initialized with
  | false => simp [AdapterMemory.ttl, hb] at httl
  | true =>
    have hinv := inv_isExpired a now (a.ns ++ k) h
    simp only [AdapterMemory.ttl, hb, Bool.not_true, Bool.false_eq_true,
      if_false] at httl
    by_cases hhas : mapHas a.store (a.ns ++ k) = true
    · rw [if_neg (by simp [hhas])] at httl
      by_cases hexp : (a.isExpired now (a.ns ++ k)).1 = true
      · rw [if_pos hexp] at httl
        injection httl with httl
        subst httl
        exact hinv
      · rw [if_neg hexp] at httl
        rcases hg : mapGet (a.isExpired now (a.ns ++ k)).2.expirations (a.ns ++ k)
          with _ | e
        · rw [hg] at httl
          injection httl with httl
          subst httl
          exact hinv
        · rw [hg] at httl
          injection httl with httl
          subst httl
          exact hinv
    · rw [if_pos (by simp [Bool.not_eq_true] at hhas; simp [hhas])] at httl
      injection httl with httl
      subst httl
      exact h

theorem inv_expire (a : AdapterMemory) (now : Nat) (k : String) (t : Nat)
    (r : Bool × AdapterMemory) (h : MemInvariant a)
    (hexp : a.expire now k t = .ok r) : MemInvariant r.2 := by
  cases hb : a.initialized with
  | false => simp [AdapterMemory.expire, hb] at hexp
  | true =>
    have hinv := inv_isExpired a now (a.ns ++ k) h
    simp only [AdapterMemory.expire, hb, Bool.not_true, Bool.false_eq_true,
      if_false] at hexp
    by_cases hhas : mapHas a.store (a.ns ++ k) = true
    · rw [if_neg (by simp [hhas])] at hexp
      by_cases he : (a.isExpired now (a.ns ++ k)).1 = true
      · rw [if_pos he] at hexp
        injection hexp with hexp
        subst hexp
        exact hinv
      · rw [if_neg he] at hexp
        injection hexp with hexp
        subst hexp
        have hsnd : (a.isExpired now (a.ns ++ k)).2 = a :=
          isExpired_false_snd a now (a.ns ++ k) (by simpa using he)
        rw [hsnd]
        obtain ⟨⟨hs, hen⟩, hsub⟩ := h
        refine ⟨⟨hs, nodup_keys_mapSet _ _ _ hen⟩, ?_⟩
        intro k' hk'
        show mapHas a.store k' = true
        by_cases hkk : k' = a.ns ++ k
        · subst hkk
          exact hhas
        · rw [show mapHas (mapSet a.expirations (a.ns ++ k) (now + t * 1000)) k'
            = mapHas a.expirations k' from mapHas_mapSet_ne _ _ _ _ hkk] at hk'
          exact hsub k' hk'
    · rw [if_pos (by simp [Bool.not_eq_true] at hhas; simp [hhas])] at hexp
      injection hexp with hexp
      subst hexp
      exact h

theorem inv_keysFilterLoop (ks : List String) (a : AdapterMemory) (now : Nat)
    (h : MemInvariant a) : MemInvariant (keysFilterLoop a now ks).2 := by
  induction ks generalizing a with
  | nil => exact h
  | cons k ks ih =>
    have hstep := inv_isExpired a now k h
    by_cases he : (a.isExpired now k).1 = true <;>
      simp [keysFilterLoop, he, ih _ hstep]

theorem inv_keys (a : AdapterMemory) (now : Nat) (p : String)
    (r : List String × AdapterMemory) (h : MemInvariant a)
    (hkeys : a.keys now p = .ok r) : MemInvariant r.2 := by
  cases hb : a.initialized with
  | false => simp [AdapterMemory.keys, hb] at hkeys
  | true =>
    have hloop := inv_keysFilterLoop (a.store.map Prod.fst) a now h
    simp only [AdapterMemory.keys, hb, Bool.not_true, Bool.false_eq_true,
      if_false] at hkeys
    by_cases hp : p = "*"
    · rw [if_pos hp] at hkeys
      injection hkeys with hkeys
      subst hkeys
      exact hloop
    · rw [if_neg hp] at hkeys
      injection hkeys with hkeys
      subst hkeys
      exact hloop

theorem inv_clearLoop (ks : List String) (a : AdapterMemory)
    (h : MemInvariant a) : MemInvariant (clearLoop a ks) := by
  induction ks generalizing a with
  | nil => exact h
  | cons k ks ih =>
    exact ih _ (inv_delete_maps a (a.ns ++ k) h)

theorem inv_clear (a : AdapterMemory) (now : Nat) (p : String)
    (r : Nat × AdapterMemory) (h : MemInvariant a)
    (hclear : a.clear now p = .ok r) : MemInvariant r.2 := by
  unfold AdapterMemory.clear at hclear
  rcases hk : a.keys now p with e | r1
  · rw [hk] at hclear
    cases hclear
  · rw [hk] at hclear
    injection hclear with hclear
    subst hclear
    exact inv_clearLoop r1.1 r1.2 (inv_keys a now p r1 h hk)

theorem inv_setMultipleLoop (ps : List (String × JsValue)) (a : AdapterMemory)
    (now : Nat) (o : Option Nat) (r : List Bool × AdapterMemory)
    (h : MemInvariant a) (hr : setMultipleLoop a now o ps = .ok r) :
    MemInvariant r.2 := by
  induction ps generalizing a r with
  | nil =>
    simp only [setMultipleLoop] at hr
    injection hr with hr
    subst hr
    exact h
  | cons p ps ih =>
    obtain ⟨k, v⟩ := p
    simp only [setMultipleLoop] at hr
    split at hr
    · cases hr
    · rename_i r1 hs
      split at hr
      · cases hr
      · rename_i r2 hl
        injection hr with hr
        subst hr
        exact ih r1.2 r2 (inv_set a now k v o r1 h hs) hl

theorem inv_setMultiple (a : AdapterMemory) (now : Nat)
    (ps : List (String × JsValue)) (o : Option Nat)
    (r : List Bool × AdapterMemory) (h : MemInvariant a)
    (hr : a.setMultiple now ps o = .ok r) : MemInvariant r.2 := by
  cases hb : a.initialized with
  | false => simp [AdapterMemory.setMultiple, hb] at hr
  | true =>
    simp only [AdapterMemory.setMultiple, hb, Bool.not_true, Bool.false_eq_true,
      if_false] at hr
    exact inv_setMultipleLoop ps a now o r h hr

theorem inv_getMultipleLoop (ks : List String) (a : AdapterMemory) (now : Nat)
    (acc : List (String × JsValue)) (r : List (String × JsValue) × AdapterMemory)
    (h : MemInvariant a) (hr : getMultipleLoop a now acc ks = .ok r) :
    MemInvariant r.2 := by
  induction ks generalizing a acc r with
  | nil =>
    simp only [getMultipleLoop] at hr
    injection hr with hr
    subst hr
    exact h
  | cons k ks ih =>
    simp only [getMultipleLoop] at hr
    split at hr
    · cases hr
    · rename_i r1 hg
      exact ih r1.2 (mapSet acc k r1.1) r (inv_get a now k r1 h hg) hr

theorem inv_getMultiple (a : AdapterMemory) (now : Nat) (ks : List String)
    (r : List (String × JsValue) × AdapterMemory) (h : MemInvariant a)
    (hr : a.getMultiple now ks = .ok r) : MemInvariant r.2 := by
  cases hb : a.initialized with
  | false => simp [AdapterMemory.getMultiple, hb] at hr
  | true =>
    simp only [AdapterMemory.getMultiple, hb, Bool.not_true, Bool.false_eq_true,
      if_false] at hr
    exact inv_getMultipleLoop ks a now [] r h hr

theorem inv_transactionLoop (ops : List Operation) (a : AdapterMemory)
    (now : Nat) (r : List OpResult × AdapterMemory) (h : MemInvariant a)
    (hr : transactionLoop a now ops = .ok r) : MemInvariant r.2 := by
  induction ops generalizing a r with
  | nil =>
    simp only [transactionLoop] at hr
    injection hr with hr
    subst hr
    exact h
  | cons op ops ih =>
    simp only [transactionLoop] at hr
    cases op with
    | setOp k v o =>
      simp only [] at hr
      split at hr
      · cases hr
      · rename_i rr hcase
        split at hcase
        · cases hcase
        · rename_i r1 hs
          injection hcase with hcase
          subst hcase
          split at hr
          · cases hr
          · rename_i r2 hl
            injection hr with hr
            subst hr
            exact ih r1.2 r2 (inv_set a now k v o r1 h hs) hl
    | getOp k =>
      simp only [] at hr
      split at hr
      · cases hr
      · rename_i rr hcase
        split at hcase
        · cases hcase
        · rename_i r1 hs
          injection hcase with hcase
          subst hcase
          split at hr
          · cases hr
          · rename_i r2 hl
            injection hr with hr
            subst hr
            exact ih r1.2 r2 (inv_get a now k r1 h hs) hl
    | delOp k =>
      simp only [] at hr
      split at hr
      · cases hr
      · rename_i rr hcase
        split at hcase
        · cases hcase
        · rename_i r1 hs
          injection hcase with hcase
          subst hcase
          split at hr
          · cases hr
          · rename_i r2 hl
            injection hr with hr
            subst hr
            exact ih r1.2 r2 (inv_delete a k r1 h hs) hl

theorem inv_transaction (a : AdapterMemory) (now : Nat) (ops : List Operation)
    (r : List OpResult × AdapterMemory) (h : MemInvariant a)
    (hr : a.transaction now ops = .ok r) : MemInvariant r.2 := by
  cases hb : a.initialized with
  | false => simp [AdapterMemory.transaction, hb] at hr
  | true =>
    simp only [AdapterMemory.transaction, hb, Bool.not_true, Bool.false_eq_true,
      if_false] at hr
    exact inv_transactionLoop ops a now r h hr

theorem inv_ttlCleanup (a : AdapterMemory) (now : Nat) (h : MemInvariant a) :
    MemInvariant (a.ttlCleanup now) := by
  unfold AdapterMemory.ttlCleanup
  by_cases hc : a.ttlCleanupIntervalSec = 0
  · simpa [hc] using h
  · rw [if_neg hc]
    obtain ⟨⟨hs, he⟩, hsub⟩ := h
    refine ⟨⟨hs.sublist ((List.filter_sublist _).map Prod.fst),
      he.sublist ((List.filter_sublist _).map Prod.fst)⟩, ?_⟩
    intro k hk
    rw [mapHas_iff_mem] at hk
    obtain ⟨p, hpmem, hpk⟩ := List.mem_map.mp hk
    obtain ⟨hpin, hplive⟩ := List.mem_filter.mp hpmem
    have hkexps : mapHas a.expirations k = true :=
      (mapHas_iff_mem _ _).mpr (hpk ▸ List.mem_map_of_mem Prod.fst hpin)
    have hkstore := hsub k hkexps
    rw [mapHas_iff_mem] at hkstore
    obtain ⟨s, hsin, hsk⟩ := List.mem_map.mp hkstore
    have hknotexpired :
        k ∉ ((a.expirations.filter (fun p => p.2 ≤ now)).map Prod.fst) := by
      intro hkex
      obtain ⟨q, hqmem, hqk⟩ := List.mem_map.mp hkex
      obtain ⟨hqin, hqle⟩ := List.mem_filter.mp hqmem
      have : p = q := eq_of_mem_nodup_keys he hpin hqin (by rw [hpk, hqk])
      subst this
      rw [decide_eq_true_eq] at hqle
      simp [hqle] at hplive
    rw [mapHas_iff_mem]
    refine List.mem_map.mpr ⟨s, List.mem_filter.mpr ⟨hsin, ?_⟩, hsk⟩
    simp only [Bool.not_eq_true']
    by_contra hx
    rw [Bool.not_eq_false] at hx
    obtain ⟨x, hxmem, hbeq⟩ := List.contains_iff_exists_mem_beq.mp hx
    rw [beq_iff_eq] at hbeq
    exact hknotexpired (hsk ▸ hbeq ▸ hxmem)

theorem inv_initializeAdapter (a : AdapterMemory) (now : Nat) (h : MemInvariant a) :
    MemInvariant (a.initializeAdapter now) := by
  unfold AdapterMemory.initializeAdapter
  exact inv_ttlCleanup _ now h

/-- C10: in the in-memory adapter, every key present in the expirations map
is also present in the value store (no orphaned expiry entries).  The
invariant — strengthened with the key-distinctness a JS `Map` guarantees by
construction — holds for the freshly constructed (empty) adapter and is
preserved by every operation: `initialize` (which runs the first sweep),
`set`, `get`, `delete`, `exists`, `keys`, `clear`, `setMultiple`,
`getMultiple`, `expire`, `ttl`, `transaction`, the lazy expiry check on
read, and the background cleanup sweep. -/
theorem C10_expirations_subset_store :
    (∀ ns d c, MemInvariant (AdapterMemory.construct ns d c)) ∧
    (∀ a, MemInvariant a → expSubStore a) ∧
    (∀ a now k, MemInvariant a → MemInvariant (AdapterMemory.isExpired a now k).2) ∧
    (∀ a now k v o r, MemInvariant a →
      AdapterMemory.set a now k v o = .ok r → MemInvariant r.2) ∧
    (∀ a now k r, MemInvariant a →
      AdapterMemory.get a now k = .ok r → MemInvariant r.2) ∧
    (∀ a k r, MemInvariant a →
      AdapterMemory.delete a k = .ok r → MemInvariant r.2) ∧
    (∀ a now k r, MemInvariant a →
      AdapterMemory.existsKey a now k = .ok r → MemInvariant r.2) ∧
    (∀ a now p r, MemInvariant a →
      AdapterMemory.keys a now p = .ok r → MemInvariant r.2) ∧
    (∀ a now p r, MemInvariant a →
      AdapterMemory.clear a now p = .ok r → MemInvariant r.2) ∧
    (∀ a now ps o r, MemInvariant a →
      AdapterMemory.setMultiple a now ps o = .ok r → MemInvariant r.2) ∧
    (∀ a now ks r, MemInvariant a →
      AdapterMemory.getMultiple a now ks = .ok r → MemInvariant r.2) ∧
    (∀ a now k t r, MemInvariant a →
      AdapterMemory.expire a now k t = .ok r → MemInvariant r.2) ∧
    (∀ a now k r, MemInvariant a →
      AdapterMemory.ttl a now k = .ok r → MemInvariant r.2) ∧
    (∀ a now ops r, MemInvariant a →
      AdapterMemory.transaction a now ops = .ok r → MemInvariant r.2) ∧
    (∀ a now, MemInvariant a → MemInvariant (AdapterMemory.ttlCleanup a now)) ∧
    (∀ a now, MemInvariant a → MemInvariant (AdapterMemory.initializeAdapter a now)) := by
  refine ⟨?_, fun a h => h.2, fun a now k h => inv_isExpired a now k h,
    fun a now k v o r h hr => inv_set a now k v o r h hr,
    fun a now k r h hr => inv_get a now k r h hr,
    fun a k r h hr => inv_delete a k r h hr,
    fun a now k r h hr => inv_existsKey a now k r h hr,
    fun a now p r h hr => inv_keys a now p r h hr,
    fun a now p r h hr => inv_clear a now p r h hr,
    fun a now ps o r h hr => inv_setMultiple a now ps o r h hr,
    fun a now ks r h hr => inv_getMultiple a now ks r h hr,
    fun a now k t r h hr => inv_expire a now k t r h hr,
    fun a now k r h hr => inv_ttl a now k r h hr,
    fun a now ops r h hr => inv_transaction a now ops r h hr,
    fun a now h => inv_ttlCleanup a now h,
    fun a now h => inv_initializeAdapter a now h⟩
  intro ns d c
  exact ⟨⟨List.nodup_nil, List.nodup_nil⟩,
    fun k hk => by simp [mapHas, mapGet] at hk⟩

/-- C10 witness: the invariant theorem applied concretely — the empty
adapter satisfies the invariant, and a concrete `set` preserves it. -/
theorem C10_expirations_subset_store_witness :
    MemInvariant memNullTtlState :=
  C10_expirations_subset_store.2.2.2.1 memInit 0 "k" .null (some 2)
    (true, memNullTtlState)
    ⟨⟨List.nodup_nil, List.nodup_nil⟩,
      fun k hk => by simp [memInit, AdapterMemory.initializeAdapter,
        AdapterMemory.ttlCleanup, AdapterMemory.construct, mapHas, mapGet] at hk⟩
    rfl

end KV
